import Mathlib

/-!
# GummyGrid: a shallow embedding of the avatar-generator core

This file embeds the core of the `gummygrid` TypeScript library in Lean 4:

* the seeded `Randomizer` (hash-chained PRNG with weighted choice),
* the `Grid`/`Cell` fill algorithm (symmetry mirroring, edge guarantees),
* the SVG path renderer's per-cell contour emission,
* the recursive configuration merge used by the `GummyGrid` facade.

Modelling conventions:

* JavaScript 32-bit signed integers (`x |= 0`, `x << 5`) are modelled on `ℤ`
  with an explicit reduction `toInt32` into `[-2^31, 2^31)`.
* JavaScript `number`s that carry fractional values (weights, rounding
  fractions, coordinates) are modelled as `ℚ`.  The library's observable
  claims proved here (determinism, contour counts, selection of indices)
  do not depend on IEEE-754 rounding of these quantities.
* Thrown exceptions are modelled with `Except`; each operation returns its
  result together with the post-state, the state being unchanged on the
  error path (in JS the throw happens before any state mutation).
* Unbounded JS recursions (`recursiveDivideByTen` on an all-zero array,
  which stack-overflows in JS) are modelled with explicit fuel; the fuel is
  sufficient whenever the JS code terminates.
-/

namespace GummyGrid

/-- Reduction of an integer to the JavaScript signed 32-bit range
`[-2^31, 2^31)`, as performed by `x |= 0`. -/
def toInt32 (x : ℤ) : ℤ := (x + 2 ^ 31) % 2 ^ 32 - 2 ^ 31

/-- State of `Randomizer` (src/unnamed/part_005): the seed string, the
32-bit hash, and the construction-time salt. -/
structure RState where
  seed : String
  hash : ℤ
  salt : ℤ
  deriving Repr, DecidableEq

/-- `bumpHash`: `hash = (hash << 5) - hash + number; hash |= 0`.
`hash << 5` is itself a 32-bit operation, hence the inner `toInt32`. -/
def bumpHash (h n : ℤ) : ℤ := toInt32 (toInt32 (h * 32) - h + n)

/-- `bumpHash` acting on the randomizer state. -/
def RState.bump (st : RState) (n : ℤ) : RState := { st with hash := bumpHash st.hash n }

/-- `new Randomizer(salt)`: seed `''`, hash `0`, then `bumpHash(salt)`. -/
def mkRandomizer (salt : ℤ) : RState :=
  RState.bump { seed := "", hash := 0, salt := salt } salt

/-- `setHash`: reset hash to 0, fold in every character code of the seed,
then fold in the salt.  (Character codes are modelled by `Char.toNat`.) -/
def setHashVal (salt : ℤ) (seed : String) : ℤ :=
  bumpHash (seed.data.foldl (fun h c => bumpHash h (c.toNat : ℤ)) 0) salt

/-- `setSeed(str)`: store the seed and recompute the hash from scratch. -/
def setSeed (st : RState) (s : String) : RState :=
  { st with seed := s, hash := setHashVal st.salt s }

/-- `getRandomNumber(min, max)`: `|hash| % (max - min + 1) + min`
(read-only on the state). -/
def getRandomNumber (h min max : ℤ) : ℤ := |h| % (max - min + 1) + min

/-- `updateHash()`: fold `getRandomNumber(1, 999)` (computed from the
current hash) back into the hash. -/
def updateHash (st : RState) : RState :=
  st.bump (getRandomNumber st.hash 1 999)

/-- `number(min, max)`: read the draw from the current hash, then advance
the hash once. -/
def number (st : RState) (min max : ℤ) : ℤ × RState :=
  (getRandomNumber st.hash min max, updateHash st)

/-- `Math.round` (half-up, also for `.5` ties). -/
def jsRound (q : ℚ) : ℤ := ⌊q + 1 / 2⌋

/-- Number of decimal places of a rational, capped at 2 — the cap mirrors
`Math.min(2, maxDecimalPlaces)` in `normalizeDecimalsToIntegers`.  (In JS
the count is read off `num.toString()`; on exact short decimals the two
agree, and all counts `≥ 2` are collapsed by the cap anyway.) -/
def decimalPlacesCapped (q : ℚ) : ℕ :=
  if q.den = 1 then 0 else if (q * 10).den = 1 then 1 else 2

/-- `normalizeDecimalsToIntegers(arr)`: if every entry is an integer,
return the array unchanged; otherwise scale all entries by
`10 ^ min(2, maxDecimalPlaces)` and round each one. -/
def normalizeDecimalsToIntegers (arr : List ℚ) : List ℤ :=
  let maxDP := (arr.map decimalPlacesCapped).foldl max 0
  if maxDP = 0 then arr.map (·.num)
  else arr.map (fun q => jsRound (q * (10 : ℚ) ^ maxDP))

/-- One fuel-indexed step of `recursiveDivideByTen`: while every entry is a
multiple of ten, divide every entry by ten.  (On an all-zero nonempty array
the JS original recurses forever; the fuel below is sufficient whenever the
JS code terminates.) -/
def recursiveDivideByTenGo : ℕ → List ℤ → List ℤ
  | 0, arr => arr
  | fuel + 1, arr =>
    if arr.all (fun x => x % 10 = 0) then recursiveDivideByTenGo fuel (arr.map (· / 10))
    else arr

/-- `recursiveDivideByTen(arr)` with fuel `Σ |entries| + 1`. -/
def recursiveDivideByTen (arr : List ℤ) : List ℤ :=
  recursiveDivideByTenGo (arr.foldl (fun a x => a + x.natAbs) 0 + 1) arr

/-- `normalizeWeights`: decimal normalization followed by repeated
division by ten. -/
def normalizeWeights (arr : List ℚ) : List ℤ :=
  recursiveDivideByTen (normalizeDecimalsToIntegers arr)

/-- Fuel-indexed loop of `binaryFindIndex`: insertion-point binary search
over an ascending array, exact match returning its index.  Out-of-range
reads (never reached from the wrapper) default to `0`. -/
def binaryFindIndexGo (arr : List ℤ) (sval : ℤ) : ℕ → ℤ → ℤ → ℤ
  | 0, lo, _ => lo
  | fuel + 1, lo, hi =>
    if lo ≤ hi then
      let midx := (hi - lo) / 2 + lo
      let mval := arr.getD midx.toNat 0
      if sval = mval then midx
      else if sval > mval then binaryFindIndexGo arr sval fuel (midx + 1) hi
      else binaryFindIndexGo arr sval fuel lo (midx - 1)
    else lo

/-- `binaryFindIndex(arr, sval)`. -/
def binaryFindIndex (arr : List ℤ) (sval : ℤ) : ℤ :=
  binaryFindIndexGo arr sval (arr.length + 1) 0 ((arr.length : ℤ) - 1)

/-- JS array indexing `arr[i]`: `undefined` (here `none`) out of range. -/
def listGet {α : Type} (l : List α) (i : ℤ) : Option α :=
  if 0 ≤ i then l.get? i.toNat else none

/-- The two error conditions the Randomizer can raise. -/
inductive RandErr where
  | emptyChoice
  | weightLengthMismatch
  deriving Repr, DecidableEq

/-- Return value of `choiceWeightedIndex`: the selected index together with
the zero-weight-filtered item array it indexes into. -/
structure WeightedChoice (α : Type) where
  idx : ℤ
  arr : List α
  deriving Repr, DecidableEq

/-- The cumulative-weight loop of `choiceWeightedIndex`: walking the item
and (normalized) weight arrays in lockstep, skip zero weights, and collect
the running totals, the kept items, and the final total. -/
def filterCumulative {α : Type} : List α → List ℤ → ℤ → List ℤ × List α × ℤ
  | _, [], tot => ([], [], tot)
  | [], _ :: _, tot => ([], [], tot)
  | a :: as, w :: ws, tot =>
    if w = 0 then filterCumulative as ws tot
    else
      let rest := filterCumulative as ws (tot + w)
      ((tot + w) :: rest.1, a :: rest.2.1, rest.2.2)

/-- `choiceWeightedIndex(arr, weights)`: length-mismatch check, the
single-element fast path, weight normalization, zero-weight filtering,
a draw in `[1, totalWeight]`, and the binary search. -/
def choiceWeightedIndex {α : Type} (st : RState) (arr : List α) (weights : List ℚ) :
    Except RandErr (WeightedChoice α) × RState :=
  if arr.length ≠ weights.length then (Except.error RandErr.weightLengthMismatch, st)
  else if arr.length = 1 then (Except.ok ⟨0, arr⟩, st)
  else
    let ws := normalizeWeights weights
    let fc := filterCumulative arr ws 0
    let draw := number st 1 fc.2.2
    (Except.ok ⟨binaryFindIndex fc.1 draw.1, fc.2.1⟩, draw.2)

/-- `choiceWeighted(arr, weights)`: index into the filtered array.  The
`Option` result models a possible JS `undefined`. -/
def choiceWeighted {α : Type} (st : RState) (arr : List α) (weights : List ℚ) :
    Except RandErr (Option α) × RState :=
  match choiceWeightedIndex st arr weights with
  | (Except.ok wc, st') => (Except.ok (listGet wc.arr wc.idx), st')
  | (Except.error e, st') => (Except.error e, st')

/-- `choice(arr, weights?)`. -/
def choice {α : Type} (st : RState) (arr : List α) (weights : Option (List ℚ)) :
    Except RandErr (Option α) × RState :=
  if arr.length = 0 then (Except.error RandErr.emptyChoice, st)
  else
    match weights with
    | some ws => choiceWeighted st arr ws
    | none =>
      if arr.length = 1 then (Except.ok arr.head?, st)
      else
        let draw := number st 0 ((arr.length : ℤ) - 1)
        (Except.ok (listGet arr draw.1), draw.2)

/-- `getChoiceIndex(arr, weights?)`. -/
def getChoiceIndex {α : Type} (st : RState) (arr : List α) (weights : Option (List ℚ)) :
    Except RandErr ℤ × RState :=
  if arr.length = 0 then (Except.error RandErr.emptyChoice, st)
  else
    match weights with
    | some ws =>
      (match choiceWeightedIndex st arr ws with
       | (Except.ok wc, st') => (Except.ok wc.idx, st')
       | (Except.error e, st') => (Except.error e, st'))
    | none =>
      if arr.length = 1 then (Except.ok 0, st)
      else
        let draw := number st 0 ((arr.length : ℤ) - 1)
        (Except.ok draw.1, draw.2)

/-- Fuel-indexed search for the least `k` with `q ≤ 10 ^ k`. -/
def leastPow10 (q : ℚ) : ℕ → ℕ → ℕ
  | 0, k => k
  | fuel + 1, k => if q ≤ (10 : ℚ) ^ k then k else leastPow10 q fuel (k + 1)

/-- `roundUpToNextPowerOfTen(num)` = `10 ^ ⌈log10 num⌉`, modelled for the
arguments the library feeds it (`num ≥ 1`, where it is the least power of
ten `≥ num`). -/
def roundUpToNextPowerOfTen (q : ℚ) : ℚ :=
  if q < 1 then 1 else (10 : ℚ) ^ leastPow10 q (q.num.natAbs + 1) 0

/-- `getInverseBias(bias)`. -/
def getInverseBias (q : ℚ) : ℚ :=
  if q < 1 then 1 - q else roundUpToNextPowerOfTen q - q

/-- `boolean(bias?)`.  With a bias, a two-outcome weighted choice between
`1` (weight `bias`) and `0` (weight `inverse(bias)`); the weighted arrays
have equal length 2, so the error branch is unreachable. -/
def booleanDraw (st : RState) (bias : Option ℚ) : Bool × RState :=
  match bias with
  | some b =>
    (match choiceWeighted st [(1 : ℤ), 0] [b, getInverseBias b] with
     | (Except.ok v, st') => (decide (v = some 1), st')
     | (Except.error _, st') => (false, st'))
  | none =>
    let draw := number st 0 1
    (decide (draw.1 = 1), draw.2)

/-! ## Grid / Cell (src/src/grid/index.ts, src/src/grid/cell/index.ts)

The grid is a rectangular boolean fill pattern.  Cell coordinates are
modelled as `ℤ` so that out-of-range neighbor lookups (`grid[row]?.[col]`
returning `undefined`) are honestly representable; the fill pattern is a
total function on `ℤ × ℤ`, and every in-code fill happens at in-bounds
coordinates.  The `fillDecider`/`numberPicker` callbacks injected through
`GridInnerConfig.inner` are modelled as an `Oracle` over an arbitrary
callback-state type `D`. -/

/-- The state of a `Grid`: normalized dimensions, the fill-policy
configuration, and the fill pattern. -/
structure GState where
  rows : ℕ
  cols : ℕ
  verticalSymmetry : Bool
  ensureTopBottom : Bool
  ensureLeftRight : Bool
  filled : ℤ → ℤ → Bool

/-- The injected callbacks `fillDecider` and `numberPicker`, threading an
arbitrary callback state `D` (in the real generator, the Randomizer). -/
structure Oracle (D : Type) where
  fillDecider : D → Bool × D
  numberPicker : D → ℤ → ℤ → ℤ × D

/-- The integer list `[0, 1, ..., n-1]` (JS `[...Array(n).keys()]` and
the `for` loops over rows/columns). -/
def intRange (n : ℕ) : List ℤ := (List.range n).map fun m : ℕ => (m : ℤ)

/-- Membership in `intRange`. -/
theorem mem_intRange {n : ℕ} {x : ℤ} : x ∈ intRange n ↔ 0 ≤ x ∧ x < (n : ℤ) := by
  unfold intRange
  constructor
  · intro hx
    obtain ⟨m, hm, rfl⟩ := List.mem_map.mp hx
    have hmn := List.mem_range.mp hm
    constructor <;> omega
  · rintro ⟨h0, hlt⟩
    refine List.mem_map.mpr ⟨x.toNat, List.mem_range.mpr ?_, ?_⟩ <;> omega

/-- Mark one cell filled (`cell.fill()`). -/
def fillCell (g : GState) (r c : ℤ) : GState :=
  { g with filled := fun r' c' => if r' = r ∧ c' = c then true else g.filled r' c' }

/-- `Cell.hasHorizontalParallel`: false exactly when the column count is
odd and the cell sits in the middle column. -/
def hasHorizontalParallel (g : GState) (c : ℤ) : Bool :=
  decide ¬(g.cols % 2 = 1 ∧ c = (g.cols / 2 : ℕ))

/-- `Cell.hasVerticalParallel`: false exactly when the row count is odd
and the cell sits in the middle row. -/
def hasVerticalParallel (g : GState) (r : ℤ) : Bool :=
  decide ¬(g.rows % 2 = 1 ∧ r = (g.rows / 2 : ℕ))

/-- `Grid.fillCellAndParallel`: fill the cell; fill its horizontal
parallel when it has one; under vertical symmetry additionally fill the
vertical parallel and (when that parallel has one) its horizontal
parallel — exactly `Cell.fillVerticalParallel`. -/
def fillCellAndParallel (g : GState) (r c : ℤ) : GState :=
  let g1 := fillCell g r c
  let g2 := if hasHorizontalParallel g c then fillCell g1 r ((g.cols : ℤ) - 1 - c) else g1
  if g.verticalSymmetry ∧ hasVerticalParallel g r then
    let g3 := fillCell g2 ((g.rows : ℤ) - 1 - r) c
    if hasHorizontalParallel g c then
      fillCell g3 ((g.rows : ℤ) - 1 - r) ((g.cols : ℤ) - 1 - c)
    else g3
  else g2

/-- The row-major list of fillable cells (`iterateFillableCells`): rows up
to `⌈rows/2⌉` under vertical symmetry (all rows otherwise), columns up to
`⌈columns/2⌉` always. -/
def fillableCells (g : GState) : List (ℤ × ℤ) :=
  let rowLimit := if g.verticalSymmetry then (g.rows + 1) / 2 else g.rows
  (intRange rowLimit).flatMap fun r =>
    (intRange ((g.cols + 1) / 2)).map fun c => (r, c)

/-- `Grid.generateCells`: one `wannaFill` draw per fillable cell, filling
the cell and its parallels on success. -/
def generateCells {D : Type} (O : Oracle D) (g : GState) (d : D) : GState × D :=
  (fillableCells g).foldl
    (fun p cell =>
      let draw := O.fillDecider p.2
      (if draw.1 then fillCellAndParallel p.1 cell.1 cell.2 else p.1, draw.2))
    (g, d)

/-- `Grid.hasFilledCellsTop`/`Bottom` specialized: does row `r` contain a
filled cell? -/
def rowAny (g : GState) (r : ℤ) : Bool :=
  (intRange g.cols).any fun c => g.filled r c

/-- Does column `c` contain a filled cell? -/
def colAny (g : GState) (c : ℤ) : Bool :=
  (intRange g.rows).any fun r => g.filled r c

/-- The scan phase of `ensureTopBottomCells`: walk the columns of row
`row` in order, skipping the already-forced column `v`; at the first
successful `wannaFill` draw, fill that cell (plus parallels) and stop. -/
def scanRowCells {D : Type} (O : Oracle D) (row v : ℤ) :
    GState → D → List ℤ → GState × D
  | g, d, [] => (g, d)
  | g, d, c :: rest =>
    if c = v then scanRowCells O row v g d rest
    else
      let draw := O.fillDecider d
      if draw.1 then (fillCellAndParallel g row c, draw.2)
      else scanRowCells O row v g draw.2 rest

/-- Processing of one row of `ensureTopBottomCells`: pick a column
uniformly in `[0, ⌊columns/2⌋]`, force-fill it (plus parallels), then scan
the remaining columns for at most one extra fill. -/
def ensureRowStep {D : Type} (O : Oracle D) (p : GState × D) (row : ℤ) : GState × D :=
  let pick := O.numberPicker p.2 0 ((p.1.cols : ℤ) / 2)
  let g1 := fillCellAndParallel p.1 row pick.1
  scanRowCells O row pick.1 g1 pick.2 (intRange p.1.cols)

/-- `Grid.ensureTopBottomCells`: both emptiness checks happen before any
filling; each empty extreme row is then processed in order. -/
def ensureTopBottomCells {D : Type} (O : Oracle D) (g : GState) (d : D) : GState × D :=
  let rows := (if rowAny g 0 then [] else [(0 : ℤ)]) ++
    (if rowAny g ((g.rows : ℤ) - 1) then [] else [(g.rows : ℤ) - 1])
  rows.foldl (ensureRowStep O) (g, d)

/-- The scan phase of `ensureLeftRightCells` over rows of column `col`. -/
def scanColCells {D : Type} (O : Oracle D) (col v : ℤ) :
    GState → D → List ℤ → GState × D
  | g, d, [] => (g, d)
  | g, d, r :: rest =>
    if r = v then scanColCells O col v g d rest
    else
      let draw := O.fillDecider d
      if draw.1 then (fillCellAndParallel g r col, draw.2)
      else scanColCells O col v g draw.2 rest

/-- Processing of one column of `ensureLeftRightCells`: pick a row
uniformly in `[0, ⌊rows/2⌋]`, force-fill, then scan the remaining rows. -/
def ensureColStep {D : Type} (O : Oracle D) (p : GState × D) (col : ℤ) : GState × D :=
  let pick := O.numberPicker p.2 0 ((p.1.rows : ℤ) / 2)
  let g1 := fillCellAndParallel p.1 pick.1 col
  scanColCells O col pick.1 g1 pick.2 (intRange p.1.rows)

/-- `Grid.ensureLeftRightCells`. -/
def ensureLeftRightCells {D : Type} (O : Oracle D) (g : GState) (d : D) : GState × D :=
  let cols := (if colAny g 0 then [] else [(0 : ℤ)]) ++
    (if colAny g ((g.cols : ℤ) - 1) then [] else [(g.cols : ℤ) - 1])
  cols.foldl (ensureColStep O) (g, d)

/-- `Grid.build()`: base generation, then the two optional edge
guarantees. -/
def gridBuild {D : Type} (O : Oracle D) (g : GState) (d : D) : GState × D :=
  let p1 := generateCells O g d
  let p2 := if p1.1.ensureTopBottom then ensureTopBottomCells O p1.1 p1.2 else p1
  if p2.1.ensureLeftRight then ensureLeftRightCells O p2.1 p2.2 else p2

/-! ### Grid construction (src/src/grid/index.ts constructor) -/

/-- The `size` field of `GridConfig`: a single number or a
rows/columns pair.  `ℚ` models arbitrary (possibly fractional) JS
numbers. -/
inductive GridSizeConfig where
  | num (n : ℚ)
  | rc (rows cols : ℚ)
  deriving Repr, DecidableEq

/-- The construction-time error of `Grid`. -/
inductive GridErr where
  | invalidDimensions
  deriving Repr, DecidableEq

/-- The rows/columns pair a size configuration stands for (`[rows,
columns] = typeof size == 'number' ? [size, size] : [size.rows,
size.columns]`). -/
def resolvedSize : GridSizeConfig → ℚ × ℚ
  | GridSizeConfig.num n => (n, n)
  | GridSizeConfig.rc r c => (r, c)

/-- `Grid.getNormalizedSize`: resolve the one-or-two-number size, then
fail unless both counts are positive integers. -/
def getNormalizedSize (size : GridSizeConfig) : Except GridErr (ℕ × ℕ) :=
  let rc := resolvedSize size
  if rc.1 ≤ 0 ∨ rc.2 ≤ 0 ∨ rc.1.den ≠ 1 ∨ rc.2.den ≠ 1 then
    Except.error GridErr.invalidDimensions
  else Except.ok (rc.1.num.toNat, rc.2.num.toNat)

/-- The `Grid` constructor: size normalization/validation first (before
any cell allocation), then the all-empty initial grid. -/
def gridCtor (size : GridSizeConfig) (vs tb lr : Bool) : Except GridErr GState :=
  match getNormalizedSize size with
  | Except.error e => Except.error e
  | Except.ok rc =>
    Except.ok
      { rows := rc.1, cols := rc.2, verticalSymmetry := vs,
        ensureTopBottom := tb, ensureLeftRight := lr,
        filled := fun _ _ => false }

/-! ## SVG path renderer (src/src/svg/index.ts)

Path data is modelled as a list of abstract drawing commands over `ℚ`
coordinates; the SVG document string is obtained from these (plus the
resolved colors and configuration) by deterministic string formatting, so
equality of the abstract values implies byte-identical output. -/

/-- One SVG path-data command, as emitted by the renderer.  All arcs in
the source have `rx = ry` and large-arc-flag `0`; `sweep` is the
sweep-flag. -/
inductive PathCmd where
  | moveTo (x y : ℚ)
  | lineTo (x y : ℚ)
  | arc (r : ℚ) (sweep : Bool) (x y : ℚ)
  | close
  deriving Repr, DecidableEq

/-- The SVG style configuration fields feeding the path renderer
(`SVGInnerConfig` minus colors), plus `inner.cellSize`. -/
structure SVGStyle where
  patternAreaRatio : ℚ
  flow : Bool
  gutter : ℚ
  roundingInner : ℚ
  roundingOuter : ℚ
  strokeWidth : ℚ
  cellSize : ℚ
  deriving Repr, DecidableEq

/-- `calculated.cellRadius.outer` = `cellSize * cellRounding.outer / 2`. -/
def cellRadiusOuter (s : SVGStyle) : ℚ := s.cellSize * s.roundingOuter / 2

/-- `calculated.cellRadius.inner` = `cellSize * cellRounding.inner / 2`. -/
def cellRadiusInner (s : SVGStyle) : ℚ := s.cellSize * s.roundingInner / 2

/-- `calculated.ptnWidth`. -/
def ptnWidth (s : SVGStyle) (cols : ℕ) : ℚ :=
  s.cellSize * cols + s.gutter * ((cols : ℚ) - 1) + s.strokeWidth

/-- `calculated.ptnHeight`. -/
def ptnHeight (s : SVGStyle) (rows : ℕ) : ℚ :=
  s.cellSize * rows + s.gutter * ((rows : ℚ) - 1) + s.strokeWidth

/-- `calculated.backgroundWH`. -/
def backgroundWH (s : SVGStyle) (rows cols : ℕ) : ℚ :=
  max (ptnWidth s cols) (ptnHeight s rows) / s.patternAreaRatio

/-- Is `(r, c)` a real cell of the grid (`grid[row]?.[col] !== undefined`)? -/
def inBounds (g : GState) (r c : ℤ) : Bool :=
  decide (0 ≤ r ∧ r < g.rows ∧ 0 ≤ c ∧ c < g.cols)

/-- `Cell.hasFilledNeighbor` at offset `(dr, dc)`: the neighbor exists and
is filled. -/
def hasFilledNeighborAt (g : GState) (r c dr dc : ℤ) : Bool :=
  inBounds g (r + dr) (c + dc) && g.filled (r + dr) (c + dc)

/-- `getRawCellCoordinates`: top-left corner of the cell's square. -/
def rawCellCoords (s : SVGStyle) (r c : ℤ) : ℚ × ℚ :=
  ((c : ℚ) * (s.cellSize + s.gutter), (r : ℚ) * (s.cellSize + s.gutter))

/-- `SVG.drawFilledCellPath`: the closed rounded-rectangle contour of a
filled cell, with flow-conditioned elbows replacing arcs at corners that
visually merge with filled neighbors. -/
def drawFilledCellPath (s : SVGStyle) (g : GState) (r c : ℤ) : List PathCmd :=
  let xy := rawCellCoords s r c
  let x := xy.1
  let y := xy.2
  let cs := s.cellSize
  let ro := cellRadiusOuter s
  let hasTop := hasFilledNeighborAt g r c (-1) 0
  let hasBottom := hasFilledNeighborAt g r c 1 0
  let hasLeft := hasFilledNeighborAt g r c 0 (-1)
  let hasRight := hasFilledNeighborAt g r c 0 1
  let hasTopRight := hasFilledNeighborAt g r c (-1) 1
  let hasTopLeft := hasFilledNeighborAt g r c (-1) (-1)
  let hasBottomRight := hasFilledNeighborAt g r c 1 1
  let hasBottomLeft := hasFilledNeighborAt g r c 1 (-1)
  [PathCmd.moveTo x (y + cs / 2)]
  ++ (if s.roundingOuter < 1 then [PathCmd.lineTo x (y + ro)] else [])
  ++ (if s.roundingOuter ≠ 0 then
        if s.flow ∧ (hasLeft ∨ hasTop ∨ hasTopLeft) then
          [PathCmd.lineTo x y, PathCmd.lineTo (x + ro) y]
        else [PathCmd.arc ro true (x + ro) y]
      else [])
  ++ (if s.roundingOuter < 1 then [PathCmd.lineTo (x + cs - ro) y] else [])
  ++ (if s.roundingOuter ≠ 0 then
        if s.flow ∧ (hasRight ∨ hasTop ∨ hasTopRight) then
          [PathCmd.lineTo (x + cs) y, PathCmd.lineTo (x + cs) (y + ro)]
        else [PathCmd.arc ro true (x + cs) (y + ro)]
      else [])
  ++ (if s.roundingOuter < 1 then [PathCmd.lineTo (x + cs) (y + cs - ro)] else [])
  ++ (if s.roundingOuter ≠ 0 then
        if s.flow ∧ (hasRight ∨ hasBottom ∨ hasBottomRight) then
          [PathCmd.lineTo (x + cs) (y + cs), PathCmd.lineTo (x + cs - ro) (y + cs)]
        else [PathCmd.arc ro true (x + cs - ro) (y + cs)]
      else [])
  ++ (if s.roundingOuter < 1 then [PathCmd.lineTo (x + ro) (y + cs)] else [])
  ++ (if s.roundingOuter ≠ 0 then
        if s.flow ∧ (hasLeft ∨ hasBottom ∨ hasBottomLeft) then
          [PathCmd.lineTo x (y + cs), PathCmd.lineTo x (y + cs - ro)]
        else [PathCmd.arc ro true x (y + cs - ro)]
      else [])
  ++ (if s.roundingOuter < 1 then [PathCmd.lineTo x (y + cs / 2)] else [])
  ++ [PathCmd.close]

/-- `SVG.canDrawInnerCorner`: inner rounding is nonzero and (the two
roundings "differ" — `inner ≥ outer` with a nonzero stroke width, `inner >
outer` without — or `flow` is enabled). -/
def canDrawInnerCorner (s : SVGStyle) : Bool :=
  decide (s.roundingInner ≠ 0 ∧
    ((if s.strokeWidth ≠ 0 then s.roundingInner ≥ s.roundingOuter
      else s.roundingInner > s.roundingOuter) ∨ s.flow = true))

/-- `SVG.drawInnerCornersPath`: for an empty cell, one small closed
concave-corner contour per pair of adjacent filled orthogonal neighbors
(top+left, top+right, bottom+right, bottom+left). -/
def drawInnerCornersPath (s : SVGStyle) (g : GState) (r c : ℤ) : List PathCmd :=
  let xy := rawCellCoords s r c
  let x := xy.1
  let y := xy.2
  let cs := s.cellSize
  let ri := cellRadiusInner s
  let ro := cellRadiusOuter s
  let hasTop := hasFilledNeighborAt g r c (-1) 0
  let hasBottom := hasFilledNeighborAt g r c 1 0
  let hasLeft := hasFilledNeighborAt g r c 0 (-1)
  let hasRight := hasFilledNeighborAt g r c 0 1
  (if hasTop && hasLeft then
    [PathCmd.moveTo x (y + ri), PathCmd.arc ri true (x + ri) y, PathCmd.lineTo (x + ro) y]
    ++ (if s.flow then [PathCmd.lineTo x y, PathCmd.lineTo x (y + ro)]
        else if ro ≠ 0 then [PathCmd.arc ro false x (y + ro)] else [])
    ++ [PathCmd.lineTo x (y + ri), PathCmd.close]
  else [])
  ++ (if hasTop && hasRight then
    [PathCmd.moveTo (x + cs - ri) y, PathCmd.arc ri true (x + cs) (y + ri),
     PathCmd.lineTo (x + cs) (y + ro)]
    ++ (if s.flow then [PathCmd.lineTo (x + cs) y, PathCmd.lineTo (x + cs - ro) y]
        else if ro ≠ 0 then [PathCmd.arc ro false (x + cs - ro) y] else [])
    ++ [PathCmd.lineTo (x + cs - ri) y, PathCmd.close]
  else [])
  ++ (if hasBottom && hasRight then
    [PathCmd.moveTo (x + cs) (y + cs - ri), PathCmd.arc ri true (x + cs - ri) (y + cs),
     PathCmd.lineTo (x + cs - ro) (y + cs)]
    ++ (if s.flow then [PathCmd.lineTo (x + cs) (y + cs), PathCmd.lineTo (x + cs) (y + cs - ro)]
        else if ro ≠ 0 then [PathCmd.arc ro false (x + cs) (y + cs - ro)] else [])
    ++ [PathCmd.lineTo (x + cs) (y + cs - ri), PathCmd.close]
  else [])
  ++ (if hasBottom && hasLeft then
    [PathCmd.moveTo (x + ri) (y + cs), PathCmd.arc ri true x (y + cs - ri),
     PathCmd.lineTo x (y + cs - ro)]
    ++ (if s.flow then [PathCmd.lineTo x (y + cs), PathCmd.lineTo (x + ro) (y + cs)]
        else if ro ≠ 0 then [PathCmd.arc ro false (x + ro) (y + cs)] else [])
    ++ [PathCmd.lineTo (x + ri) (y + cs), PathCmd.close]
  else [])

/-- One cell's contribution to the aggregated path: the rounded-rectangle
contour for a filled cell; the inner-corner contours for an empty cell
when `canDrawInnerCorner`; nothing otherwise. -/
def drawCellContribution (s : SVGStyle) (g : GState) (r c : ℤ) : List PathCmd :=
  if g.filled r c then drawFilledCellPath s g r c
  else if canDrawInnerCorner s then drawInnerCornersPath s g r c
  else []

/-- The grid's cells in row-major order (`iterateCells`). -/
def allCells (g : GState) : List (ℤ × ℤ) :=
  (intRange g.rows).flatMap fun r =>
    (intRange g.cols).map fun c => (r, c)

/-- `SVG.drawCompletePath` over the row-major cell iterator. -/
def drawCompletePath (s : SVGStyle) (g : GState) : List PathCmd :=
  (allCells g).flatMap fun cell => drawCellContribution s g cell.1 cell.2

/-- Is a command the closing `'Z '` of a contour? -/
def isClose : PathCmd → Bool
  | PathCmd.close => true
  | _ => false

/-- Number of closed contours in a command list. -/
def countContours (cmds : List PathCmd) : ℕ := (cmds.filter isClose).length

/-! ## Color resolution and the GummyGrid pipeline
(src/src/svg/index.ts `getAllColors`, src/src/generator/index.ts) -/

/-- The four color categories, in `Object.keys(config.colors)` order. -/
inductive ColorCategory where
  | background
  | cellFill
  | cellStroke
  | dropShadow
  deriving Repr, DecidableEq

/-- `this.colorCategories` (the key order of the colors object). -/
def colorCategoriesList : List ColorCategory :=
  [ColorCategory.background, ColorCategory.cellFill,
   ColorCategory.cellStroke, ColorCategory.dropShadow]

/-- An `SVGColor`: a flat color string or a gradient descriptor. -/
inductive SVGColor where
  | flat (s : String)
  | gradient (tag : String) (attrs : List (String × String))
      (stops : List (String × String × Option ℚ))
  deriving Repr, DecidableEq

/-- The full SVG configuration: the style part plus the color model. -/
structure SVGConf where
  style : SVGStyle
  colors : ColorCategory → List SVGColor
  lockColors : Option (List ColorCategory)

/-- `getLockedColors`: the configured list, or every category when the
configuration says `'all'` (modelled by `none`). -/
def getLockedColors (cfg : SVGConf) : List ColorCategory :=
  match cfg.lockColors with
  | none => colorCategoriesList
  | some l => l

/-- `isLockedColor`. -/
def isLockedColor (cfg : SVGConf) (cat : ColorCategory) : Bool :=
  match cfg.lockColors with
  | none => true
  | some l => decide (cat ∈ l)

/-- Errors surfaced by `GummyGrid.buildFrom` through the
`colorIdxPicker` callback: the re-thrown weight-length mismatch naming
the offending category, or a propagated randomizer error. -/
inductive GenErr where
  | colorWeightLengthMismatch (cat : ColorCategory)
  | randErr (e : RandErr)
  deriving Repr, DecidableEq

/-- The generator's `colorIdxPicker`: `rand.getChoiceIndex(colors,
weights)` with `WeightLengthMismatchError` re-thrown as a category-naming
error. -/
def pickColorIdx (cw : ColorCategory → Option (List ℚ)) (cfg : SVGConf)
    (st : RState) (cat : ColorCategory) : Except GenErr (ℤ × RState) :=
  match getChoiceIndex st (cfg.colors cat) (cw cat) with
  | (Except.ok i, st') => Except.ok (i, st')
  | (Except.error RandErr.weightLengthMismatch, _) =>
    Except.error (GenErr.colorWeightLengthMismatch cat)
  | (Except.error e, _) => Except.error (GenErr.randErr e)

/-- The category loop of `getAllColors`: locked categories share the
already-drawn `lockedIdx`; unlocked nonempty categories draw their own
index; unlocked empty categories stay unresolved (`undefined`). -/
def resolveColorsGo (cw : ColorCategory → Option (List ℚ)) (cfg : SVGConf)
    (lockedIdx : Option ℤ) :
    List ColorCategory → (ColorCategory → Option SVGColor) → RState →
    Except GenErr ((ColorCategory → Option SVGColor) × RState)
  | [], acc, st => Except.ok (acc, st)
  | cat :: rest, acc, st =>
    if isLockedColor cfg cat then
      let v := match lockedIdx with
        | some i => listGet (cfg.colors cat) i
        | none => none
      resolveColorsGo cw cfg lockedIdx rest
        (fun c => if c = cat then v else acc c) st
    else if (cfg.colors cat).length > 0 then
      match pickColorIdx cw cfg st cat with
      | Except.ok p =>
        resolveColorsGo cw cfg lockedIdx rest
          (fun c => if c = cat then listGet (cfg.colors cat) p.1 else acc c) p.2
      | Except.error e => Except.error e
    else resolveColorsGo cw cfg lockedIdx rest acc st

/-- `SVG.getAllColors`: one shared draw for the locked group (from the
first locked category), then the per-category loop. -/
def getAllColors (cw : ColorCategory → Option (List ℚ)) (cfg : SVGConf)
    (st : RState) : Except GenErr ((ColorCategory → Option SVGColor) × RState) :=
  match getLockedColors cfg with
  | [] => resolveColorsGo cw cfg none colorCategoriesList (fun _ => none) st
  | l0 :: _ =>
    match pickColorIdx cw cfg st l0 with
    | Except.ok p => resolveColorsGo cw cfg (some p.1) colorCategoriesList (fun _ => none) p.2
    | Except.error e => Except.error e

/-- The deterministic abstract content of the SVG document produced by
`SVG.buildFrom`: the canvas size, the resolved colors, and the aggregated
path data.  The document string is a fixed formatting function of these
values and the (fixed) configuration. -/
structure SVGOut where
  canvasWH : ℚ
  resolved : ColorCategory → Option SVGColor
  pathData : List PathCmd

/-- `SVG.buildFrom(cells)`: resolve all colors (mutating the randomizer
through the picker callback), then draw the complete path. -/
def svgBuildFrom (cw : ColorCategory → Option (List ℚ)) (cfg : SVGConf)
    (g : GState) (st : RState) : Except GenErr (SVGOut × RState) :=
  match getAllColors cw cfg st with
  | Except.error e => Except.error e
  | Except.ok p =>
    Except.ok
      ({ canvasWH := backgroundWH cfg.style g.rows g.cols,
         resolved := p.1,
         pathData := drawCompletePath cfg.style g }, p.2)

/-- The merged `AvatarGeneratorConfig` as the pipeline consumes it. -/
structure GenConfig where
  salt : ℤ
  cellFillProbability : ℚ
  colorWeights : ColorCategory → Option (List ℚ)
  gridSize : GridSizeConfig
  verticalSymmetry : Bool
  ensureTopBottom : Bool
  ensureLeftRight : Bool
  svg : SVGConf

/-- `GummyGrid.connectLockedColorWeights`: copy the first locked
category's weight vector (if any is present) to every locked category. -/
def connectLockedColorWeights (cfg : GenConfig) : ColorCategory → Option (List ℚ) :=
  let locked := getLockedColors cfg.svg
  match (locked.filter fun c => (cfg.colorWeights c).isSome).head? with
  | none => cfg.colorWeights
  | some c0 =>
    match cfg.colorWeights c0 with
    | none => cfg.colorWeights
    | some w => fun c => if c ∈ locked then some w else cfg.colorWeights c

/-- A constructed `GummyGrid` instance: its merged configuration, its
Randomizer, its (initially all-empty) Grid, and the locked-weight-adjusted
color weights. -/
structure GenState where
  cfg : GenConfig
  rand : RState
  grid : GState
  cw : ColorCategory → Option (List ℚ)

/-- The `GummyGrid` constructor (given the already-merged configuration):
grid validation and allocation, a fresh salted Randomizer, and the
locked-weight wiring.  The generator fixes `inner.cellSize = 10`. -/
def genInit (cfg : GenConfig) : Except GridErr GenState :=
  match gridCtor cfg.gridSize cfg.verticalSymmetry cfg.ensureTopBottom cfg.ensureLeftRight with
  | Except.error e => Except.error e
  | Except.ok g =>
    Except.ok
      { cfg := { cfg with svg := { cfg.svg with style := { cfg.svg.style with cellSize := 10 } } },
        rand := mkRandomizer cfg.salt,
        grid := g,
        cw := connectLockedColorWeights cfg }

/-- The callbacks `GummyGrid` injects into `Grid`: `fillDecider` is
`rand.boolean(cellFillProbability)`, `numberPicker` is `rand.number`. -/
def genOracle (cfg : GenConfig) : Oracle RState :=
  { fillDecider := fun st => booleanDraw st (some cfg.cellFillProbability),
    numberPicker := fun st min max => number st min max }

/-- `GummyGrid.buildFrom(value)`: `rand.setSeed(value)`, `grid.build()`,
`svg.buildFrom(grid.iterateCells())`. -/
def genBuildFrom (gs : GenState) (seed : String) : Except GenErr (SVGOut × GenState) :=
  let r1 := setSeed gs.rand seed
  let built := gridBuild (genOracle gs.cfg) gs.grid r1
  match svgBuildFrom gs.cw gs.cfg.svg built.1 built.2 with
  | Except.error e => Except.error e
  | Except.ok p => Except.ok (p.1, { gs with rand := p.2, grid := built.1 })

/-! ## Recursive configuration merge (src/unnamed/part_000) -/

/-- A JSON-like JavaScript value.  `obj` keeps its fields in enumeration
order; arrays and primitives are leaves for the merge (only values whose
constructor is `Object` are merged key-by-key). -/
inductive JVal where
  | obj (fields : List (String × JVal))
  | num (q : ℚ)
  | str (s : String)
  | bool (b : Bool)
  | arr (elems : List JVal)
  | null

/-- Property read `obj[k]`. -/
def lookupField : List (String × JVal) → String → Option JVal
  | [], _ => none
  | (k', v) :: rest, k => if k' = k then some v else lookupField rest k

/-- Property write `obj[k] = v`: overwrite in place, or append a new key
in enumeration order. -/
def setKey : List (String × JVal) → String → JVal → List (String × JVal)
  | [], k, v => [(k, v)]
  | (k', v') :: rest, k, v =>
    if k' = k then (k, v) :: rest else (k', v') :: setKey rest k v

mutual

/-- `mergeObjectsRecursively(obj1, obj2)`: iterate `obj2`'s keys in
order; plain-object values merge recursively into `obj1`'s value at that
key, every other value overwrites it.  The function returns `obj1` itself,
mutated in place (here: the merged value, which the caller's aliases now
observe).  When `obj2` is not a plain object its key loop is empty and
`obj1` is returned unchanged; a missing `obj1[k]` under a plain-object
`obj2[k]` (a JS `TypeError`) is modelled by merging into `null`. -/
def mergeObjectsRecursively : JVal → JVal → JVal
  | a, JVal.obj fb =>
    (match a with
     | JVal.obj fa => JVal.obj (mergeFields fa fb)
     | other => other)
  | a, _ => a

/-- The key loop of `mergeObjectsRecursively` over `obj1`'s fields. -/
def mergeFields : List (String × JVal) → List (String × JVal) → List (String × JVal)
  | fa, [] => fa
  | fa, (k, vb) :: rest =>
    let newV := match vb with
      | JVal.obj fbs =>
        mergeObjectsRecursively ((lookupField fa k).getD JVal.null) (JVal.obj fbs)
      | other => other
    mergeFields (setKey fa k newV) rest

end

/-- The `GummyGrid` constructor's configuration step, with the
module-level `DEFAULT_AVATAR_GENERATOR_CONFIG` made explicit as threaded
state: `mergeObjectsRecursively(DEFAULT, config ?? {})` returns the
default object itself, so the instance's config and the new module-level
default are one and the same value. -/
def gummyCtorConfig (moduleDefault : JVal) (userCfg : Option JVal) : JVal × JVal :=
  let merged := mergeObjectsRecursively moduleDefault (userCfg.getD (JVal.obj []))
  (merged, merged)

/-! ## Theorems -/

/-- C4: For all integers `min ≤ max`, `Randomizer.number(min, max)` returns
`|hash| mod (max - min + 1) + min` computed from the pre-call hash, and
then advances the hash exactly once by folding in the dependent value
`|hash| mod 999 + 1` (in range `1..999`) derived from that same pre-call
hash; seed and salt are untouched, so successive calls form a
deterministic chain. -/
theorem number_spec (st : RState) (min max : ℤ) (_hle : min ≤ max) :
    (number st min max).1 = |st.hash| % (max - min + 1) + min ∧
    (number st min max).2.hash = bumpHash st.hash (|st.hash| % 999 + 1) ∧
    1 ≤ |st.hash| % 999 + 1 ∧ |st.hash| % 999 + 1 ≤ 999 ∧
    (number st min max).2.salt = st.salt ∧
    (number st min max).2.seed = st.seed := by
  refine ⟨rfl, rfl, ?_, ?_, rfl, rfl⟩
  · have h0 : 0 ≤ |st.hash| % 999 := Int.emod_nonneg _ (by norm_num)
    omega
  · have h1 : |st.hash| % 999 < 999 := Int.emod_lt_of_pos _ (by norm_num)
    omega

/-- Witness for C4 at a concrete state and range. -/
theorem number_spec_witness :
    (number (mkRandomizer 0) 0 5).1 = |(mkRandomizer 0).hash| % (5 - 0 + 1) + 0 ∧
    (number (mkRandomizer 0) 0 5).2.hash =
      bumpHash (mkRandomizer 0).hash (|(mkRandomizer 0).hash| % 999 + 1) ∧
    1 ≤ |(mkRandomizer 0).hash| % 999 + 1 ∧ |(mkRandomizer 0).hash| % 999 + 1 ≤ 999 ∧
    (number (mkRandomizer 0) 0 5).2.salt = (mkRandomizer 0).salt ∧
    (number (mkRandomizer 0) 0 5).2.seed = (mkRandomizer 0).seed :=
  number_spec (mkRandomizer 0) 0 5 (by decide)

/-- C8: a single-element array — with no weights or with a single-element
weight vector — makes `choice` return the sole element and
`getChoiceIndex` return index 0, with the randomizer state (in particular
its hash) left unchanged: no draw is consumed. -/
theorem choice_singleElement_noDraw {α : Type} (st : RState) (a : α) (w : ℚ) :
    choice st [a] none = (Except.ok (some a), st) ∧
    choice st [a] (some [w]) = (Except.ok (some a), st) ∧
    getChoiceIndex st [a] none = (Except.ok 0, st) ∧
    getChoiceIndex st [a] (some [w]) = (Except.ok 0, st) :=
  ⟨rfl, rfl, rfl, rfl⟩

/-- C6: with a weights array supplied and a non-empty items array,
`choice` and `getChoiceIndex` raise `WeightLengthMismatch` exactly when
the lengths differ, and in that case the randomizer state is returned
unchanged (the throw happens before any hash mutation). -/
theorem choice_weightLengthMismatch_iff {α : Type} (st : RState) (arr : List α)
    (ws : List ℚ) (hne : arr ≠ []) :
    ((choice st arr (some ws)).1 = Except.error RandErr.weightLengthMismatch ↔
      arr.length ≠ ws.length) ∧
    ((getChoiceIndex st arr (some ws)).1 = Except.error RandErr.weightLengthMismatch ↔
      arr.length ≠ ws.length) ∧
    (arr.length ≠ ws.length →
      (choice st arr (some ws)).2 = st ∧ (getChoiceIndex st arr (some ws)).2 = st) := by
  have hlen0 : ¬arr.length = 0 := by simpa [List.length_eq_zero] using hne
  by_cases hmm : arr.length = ws.length
  · have hws : ws ≠ [] := by
      intro hw
      rw [hw] at hmm
      simp only [List.length_nil] at hmm
      exact hlen0 hmm
    refine ⟨?_, ?_, fun hcon => absurd hmm hcon⟩ <;>
    · simp only [choice, getChoiceIndex, choiceWeighted, choiceWeightedIndex, hlen0, hmm,
        if_false, ite_not, ne_eq, not_true_eq_false]
      by_cases h1 : ws.length = 1 <;> simp [h1, hws]
  · constructor
    · simp [choice, choiceWeighted, choiceWeightedIndex, hlen0, hmm]
    constructor
    · simp [getChoiceIndex, choiceWeightedIndex, hlen0, hmm]
    · intro _
      constructor <;> simp [choice, getChoiceIndex, choiceWeighted, choiceWeightedIndex, hlen0, hmm]

/-- Witness for C6: a length-2 items array against a length-1 weight
vector raises the mismatch, leaving the state unchanged; equal lengths do
not raise it. -/
theorem choice_weightLengthMismatch_iff_witness :
    ((choice (mkRandomizer 0) [(10 : ℤ), 20] (some [1])).1 =
        Except.error RandErr.weightLengthMismatch ↔ [(10 : ℤ), 20].length ≠ [(1 : ℚ)].length) ∧
    ((getChoiceIndex (mkRandomizer 0) [(10 : ℤ), 20] (some [1])).1 =
        Except.error RandErr.weightLengthMismatch ↔ [(10 : ℤ), 20].length ≠ [(1 : ℚ)].length) ∧
    ([(10 : ℤ), 20].length ≠ [(1 : ℚ)].length →
      (choice (mkRandomizer 0) [(10 : ℤ), 20] (some [1])).2 = mkRandomizer 0 ∧
      (getChoiceIndex (mkRandomizer 0) [(10 : ℤ), 20] (some [1])).2 = mkRandomizer 0) :=
  choice_weightLengthMismatch_iff (mkRandomizer 0) [(10 : ℤ), 20] [1] (by decide)

/-- `normalizeDecimalsToIntegers` acts positionwise by a single function
sending `0` to `0`. -/
theorem normalizeDecimalsToIntegers_eq_map (ws : List ℚ) :
    ∃ f : ℚ → ℤ, normalizeDecimalsToIntegers ws = ws.map f ∧ f 0 = 0 := by
  unfold normalizeDecimalsToIntegers
  by_cases h : ((ws.map decimalPlacesCapped).foldl max 0) = 0
  · exact ⟨fun q => q.num, by simp [h], rfl⟩
  · refine ⟨fun q => jsRound (q * (10 : ℚ) ^ ((ws.map decimalPlacesCapped).foldl max 0)),
      by simp [h], ?_⟩
    norm_num [jsRound]

/-- `recursiveDivideByTenGo` acts positionwise by a single function
sending `0` to `0`. -/
theorem recursiveDivideByTenGo_eq_map (fuel : ℕ) :
    ∀ arr : List ℤ, ∃ g : ℤ → ℤ, recursiveDivideByTenGo fuel arr = arr.map g ∧ g 0 = 0 := by
  induction fuel with
  | zero => exact fun arr => ⟨id, by simp [recursiveDivideByTenGo], rfl⟩
  | succ n ih =>
    intro arr
    unfold recursiveDivideByTenGo
    by_cases h : arr.all (fun x => decide (x % 10 = 0)) = true
    · obtain ⟨g, hg, hg0⟩ := ih (arr.map (· / 10))
      refine ⟨fun x => g (x / 10), ?_, by simpa using hg0⟩
      simp only [h, if_true, hg, List.map_map]
      rfl
    · refine ⟨id, ?_, rfl⟩
      rw [if_neg h]
      simp

/-- `normalizeWeights` acts positionwise by a single function sending `0`
to `0`. -/
theorem normalizeWeights_eq_map (ws : List ℚ) :
    ∃ f : ℚ → ℤ, normalizeWeights ws = ws.map f ∧ f 0 = 0 := by
  obtain ⟨f1, h1, h10⟩ := normalizeDecimalsToIntegers_eq_map ws
  obtain ⟨g, hg, hg0⟩ :=
    recursiveDivideByTenGo_eq_map
      ((normalizeDecimalsToIntegers ws).foldl (fun a x => a + x.natAbs) 0 + 1)
      (normalizeDecimalsToIntegers ws)
  refine ⟨fun q => g (f1 q), ?_, by show g (f1 0) = 0; rw [h10, hg0]⟩
  rw [normalizeWeights, recursiveDivideByTen, hg, h1, List.map_map]
  rfl

/-- Every item kept by the zero-weight filter of `choiceWeightedIndex`
sits at an original position whose weight is nonzero. -/
theorem filterCumulative_mem {α : Type} :
    ∀ (arr : List α) (ws : List ℤ) (tot : ℤ) (x : α),
      x ∈ (filterCumulative arr ws tot).2.1 →
      ∃ i w, arr.get? i = some x ∧ ws.get? i = some w ∧ w ≠ 0 := by
  intro arr
  induction arr with
  | nil => intro ws tot x hx; cases ws <;> simp [filterCumulative] at hx
  | cons a as ih =>
    intro ws tot x hx
    cases ws with
    | nil => simp [filterCumulative] at hx
    | cons w wrest =>
      rw [filterCumulative] at hx
      by_cases hw : w = 0
      · rw [if_pos hw] at hx
        obtain ⟨i, w', h1, h2, h3⟩ := ih wrest tot x hx
        exact ⟨i + 1, w', by simpa using h1, by simpa using h2, h3⟩
      · rw [if_neg hw] at hx
        rcases List.mem_cons.mp hx with rfl | hx
        · exact ⟨0, w, rfl, rfl, hw⟩
        · obtain ⟨i, w', h1, h2, h3⟩ := ih wrest (tot + w) x hx
          exact ⟨i + 1, w', by simpa using h1, by simpa using h2, h3⟩

/-- C5 counterexample: on a fresh salt-0 randomizer, `getChoiceIndex`
over items `[10, 20, 30]` with weights `[0, 1, 1]` returns index `0` —
an index whose weight is zero (the index addresses the zero-weight-
filtered subsequence, not the original array). -/
theorem getChoiceIndex_zeroWeight_cex :
    (getChoiceIndex (mkRandomizer 0) [(10 : ℤ), 20, 30] (some [0, 1, 1])).1 =
      Except.ok 0 ∧
    [(0 : ℚ), 1, 1].get? 0 = some 0 := ⟨rfl, rfl⟩

/-- C5 (amended): with equal-length arrays, nonnegative weights, some
zero entry and some positive entry, `choice` never returns an item at a
zero-weight position; `getChoiceIndex` returns the selected item's index
within the zero-weight-filtered subsequence (which may coincide with an
original index whose weight is zero). -/
theorem choice_zeroWeight_amended {α : Type} (st : RState) (arr : List α) (ws : List ℚ)
    (hlen : arr.length = ws.length)
    (hpos : ∀ w ∈ ws, 0 ≤ w)
    (hzero : ∃ i, ws.get? i = some 0)
    (hsome : ∃ j w, ws.get? j = some w ∧ 0 < w) :
    (∀ x, (choice st arr (some ws)).1 = Except.ok (some x) →
      ∃ i w, arr.get? i = some x ∧ ws.get? i = some w ∧ 0 < w) ∧
    (∀ n, (getChoiceIndex st arr (some ws)).1 = Except.ok n →
      (choice st arr (some ws)).1 =
        Except.ok (listGet (filterCumulative arr (normalizeWeights ws) 0).2.1 n)) := by
  obtain ⟨i0, hi0⟩ := hzero
  obtain ⟨j0, w0, hj0, hw0⟩ := hsome
  have hij : i0 ≠ j0 := by
    intro hcon
    rw [hcon, hj0] at hi0
    cases hi0
    exact absurd rfl (ne_of_gt hw0)
  have hi0len : i0 < ws.length := List.get?_eq_some.mp hi0 |>.choose
  have hj0len : j0 < ws.length := List.get?_eq_some.mp hj0 |>.choose
  have h2 : 2 ≤ ws.length := by omega
  have hlen0 : ¬arr.length = 0 := by omega
  have hlen1 : ¬ws.length = 1 := by omega
  have hwsne : ws ≠ [] := by
    intro hcon
    rw [hcon] at h2
    simp at h2
  have key :
      (choice st arr (some ws)).1 =
        Except.ok (listGet (filterCumulative arr (normalizeWeights ws) 0).2.1
          (binaryFindIndex (filterCumulative arr (normalizeWeights ws) 0).1
            (number st 1 (filterCumulative arr (normalizeWeights ws) 0).2.2).1)) := by
    simp [choice, choiceWeighted, choiceWeightedIndex, hlen0, hlen, hlen1, hwsne]
  constructor
  · intro x hx
    rw [key] at hx
    simp only [Except.ok.injEq] at hx
    have hxmem : x ∈ (filterCumulative arr (normalizeWeights ws) 0).2.1 := by
      unfold listGet at hx
      split at hx
      · exact List.get?_mem hx
      · cases hx
    obtain ⟨i, w', h1, h2, h3⟩ := filterCumulative_mem arr (normalizeWeights ws) 0 x hxmem
    obtain ⟨f, hf, hf0⟩ := normalizeWeights_eq_map ws
    rw [hf, List.get?_map] at h2
    cases hws : ws.get? i with
    | none => rw [hws] at h2; cases h2
    | some w =>
      rw [hws] at h2
      cases h2
      have hwne : w ≠ 0 := by
        intro hcon
        rw [hcon, hf0] at h3
        exact h3 rfl
      have hwmem : w ∈ ws := List.get?_mem hws
      exact ⟨i, w, h1, hws, lt_of_le_of_ne (hpos w hwmem) (Ne.symm hwne)⟩
  · intro n hn
    have keyidx :
        (getChoiceIndex st arr (some ws)).1 =
          Except.ok (binaryFindIndex (filterCumulative arr (normalizeWeights ws) 0).1
            (number st 1 (filterCumulative arr (normalizeWeights ws) 0).2.2).1) := by
      simp [getChoiceIndex, choiceWeightedIndex, hlen0, hlen, hlen1, hwsne]
    rw [keyidx] at hn
    simp only [Except.ok.injEq] at hn
    subst hn
    exact key

/-- Witness for the amended C5: on the concrete run that yields item `20`,
the selected item's original position carries a positive weight. -/
theorem choice_zeroWeight_amended_witness :
    [(10 : ℤ), 20, 30].length = [(0 : ℚ), 1, 1].length ∧
    (∃ i w, [(10 : ℤ), 20, 30].get? i = some 20 ∧ [(0 : ℚ), 1, 1].get? i = some w ∧ 0 < w) :=
  ⟨rfl,
    (choice_zeroWeight_amended (mkRandomizer 0) [(10 : ℤ), 20, 30] [0, 1, 1] rfl
      (by intro w hw; fin_cases hw <;> norm_num)
      ⟨0, rfl⟩ ⟨1, 1, rfl, one_pos⟩).1 20 rfl⟩

/-! ### Grid infrastructure lemmas: shape preservation and fill
monotonicity -/

/-- Two grid states share dimensions and fill-policy configuration. -/
def ShapeEq (g h : GState) : Prop :=
  h.rows = g.rows ∧ h.cols = g.cols ∧ h.verticalSymmetry = g.verticalSymmetry ∧
  h.ensureTopBottom = g.ensureTopBottom ∧ h.ensureLeftRight = g.ensureLeftRight

theorem shapeEq_refl (g : GState) : ShapeEq g g := ⟨rfl, rfl, rfl, rfl, rfl⟩

theorem shapeEq_trans {g h k : GState} (a : ShapeEq g h) (b : ShapeEq h k) :
    ShapeEq g k :=
  ⟨b.1.trans a.1, b.2.1.trans a.2.1, b.2.2.1.trans a.2.2.1,
   b.2.2.2.1.trans a.2.2.2.1, b.2.2.2.2.trans a.2.2.2.2⟩

/-- Every fill of `h` extends the fills of `g`. -/
def FillLe (g h : GState) : Prop :=
  ∀ r c, g.filled r c = true → h.filled r c = true

theorem fillLe_refl (g : GState) : FillLe g g := fun _ _ h => h

theorem fillLe_trans {g h k : GState} (a : FillLe g h) (b : FillLe h k) :
    FillLe g k := fun r c hf => b r c (a r c hf)

/-- Membership after a single `fillCell`. -/
theorem fillCell_filled_iff (g : GState) (r c a b : ℤ) :
    (fillCell g r c).filled a b = true ↔ ((a = r ∧ b = c) ∨ g.filled a b = true) := by
  unfold fillCell
  dsimp only
  split <;> simp_all

theorem fillCell_shape (g : GState) (r c : ℤ) : ShapeEq g (fillCell g r c) :=
  ⟨rfl, rfl, rfl, rfl, rfl⟩

/-- Any cell filled after `fillCellAndParallel` was already filled or is
the cell itself or one of the (condition-guarded) mirror cells. -/
theorem fillCellAndParallel_filled_mp (g : GState) (r c a b : ℤ)
    (hf : (fillCellAndParallel g r c).filled a b = true) :
    g.filled a b = true ∨ (a = r ∧ b = c) ∨
      (hasHorizontalParallel g c = true ∧ a = r ∧ b = (g.cols : ℤ) - 1 - c) ∨
      (g.verticalSymmetry = true ∧ hasVerticalParallel g r = true ∧
        a = (g.rows : ℤ) - 1 - r ∧ b = c) ∨
      (g.verticalSymmetry = true ∧ hasVerticalParallel g r = true ∧
        hasHorizontalParallel g c = true ∧
        a = (g.rows : ℤ) - 1 - r ∧ b = (g.cols : ℤ) - 1 - c) := by
  unfold fillCellAndParallel at hf
  split_ifs at hf <;> simp only [fillCell_filled_iff] at hf <;> tauto

theorem fillCellAndParallel_shape (g : GState) (r c : ℤ) :
    ShapeEq g (fillCellAndParallel g r c) := by
  unfold fillCellAndParallel
  split_ifs <;> exact ⟨rfl, rfl, rfl, rfl, rfl⟩

theorem fillCellAndParallel_le (g : GState) (r c : ℤ) :
    FillLe g (fillCellAndParallel g r c) := by
  intro a b hab
  unfold fillCellAndParallel
  split_ifs <;> simp only [fillCell_filled_iff] <;> tauto

/-- The filled cell itself is filled after `fillCellAndParallel`. -/
theorem fillCellAndParallel_self (g : GState) (r c : ℤ) :
    (fillCellAndParallel g r c).filled r c = true := by
  unfold fillCellAndParallel
  split_ifs <;> simp only [fillCell_filled_iff] <;> tauto

/-- Under its guard, the horizontal parallel is filled. -/
theorem fillCellAndParallel_hp (g : GState) (r c : ℤ)
    (h : hasHorizontalParallel g c = true) :
    (fillCellAndParallel g r c).filled r ((g.cols : ℤ) - 1 - c) = true := by
  unfold fillCellAndParallel
  split_ifs <;> simp only [fillCell_filled_iff] <;> tauto

/-- Under vertical symmetry with a vertical parallel, the vertical
parallel is filled. -/
theorem fillCellAndParallel_vp (g : GState) (r c : ℤ)
    (hvs : g.verticalSymmetry = true) (hvp : hasVerticalParallel g r = true) :
    (fillCellAndParallel g r c).filled ((g.rows : ℤ) - 1 - r) c = true := by
  unfold fillCellAndParallel
  split_ifs <;> simp only [fillCell_filled_iff] <;> tauto

/-- Under vertical symmetry with both parallels, the diagonal mirror is
filled. -/
theorem fillCellAndParallel_vphp (g : GState) (r c : ℤ)
    (hvs : g.verticalSymmetry = true) (hvp : hasVerticalParallel g r = true)
    (hhp : hasHorizontalParallel g c = true) :
    (fillCellAndParallel g r c).filled ((g.rows : ℤ) - 1 - r)
      ((g.cols : ℤ) - 1 - c) = true := by
  unfold fillCellAndParallel
  split_ifs <;> simp only [fillCell_filled_iff] <;> tauto

/-- Generic shape preservation through a left fold. -/
theorem foldl_shape {D β : Type} (step : GState × D → β → GState × D)
    (hstep : ∀ p x, ShapeEq p.1 (step p x).1) :
    ∀ (l : List β) (p : GState × D), ShapeEq p.1 (List.foldl step p l).1 := by
  intro l
  induction l with
  | nil => exact fun p => shapeEq_refl _
  | cons hd tl ih => exact fun p => shapeEq_trans (hstep p hd) (ih (step p hd))

/-- Generic fill monotonicity through a left fold. -/
theorem foldl_le {D β : Type} (step : GState × D → β → GState × D)
    (hstep : ∀ p x, FillLe p.1 (step p x).1) :
    ∀ (l : List β) (p : GState × D), FillLe p.1 (List.foldl step p l).1 := by
  intro l
  induction l with
  | nil => exact fun p => fillLe_refl _
  | cons hd tl ih => exact fun p => fillLe_trans (hstep p hd) (ih (step p hd))

theorem generateCells_shape {D : Type} (O : Oracle D) (g : GState) (d : D) :
    ShapeEq g (generateCells O g d).1 := by
  unfold generateCells
  exact foldl_shape _
    (fun p x => by
      dsimp only
      split
      · exact fillCellAndParallel_shape _ _ _
      · exact shapeEq_refl _)
    (fillableCells g) (g, d)

theorem generateCells_le {D : Type} (O : Oracle D) (g : GState) (d : D) :
    FillLe g (generateCells O g d).1 := by
  unfold generateCells
  exact foldl_le _
    (fun p x => by
      dsimp only
      split
      · exact fillCellAndParallel_le _ _ _
      · exact fillLe_refl _)
    (fillableCells g) (g, d)

theorem scanRowCells_shape {D : Type} (O : Oracle D) (row v : ℤ) :
    ∀ (l : List ℤ) (g : GState) (d : D), ShapeEq g (scanRowCells O row v g d l).1 := by
  intro l
  induction l with
  | nil => intro g d; exact shapeEq_refl _
  | cons c rest ih =>
    intro g d
    rw [scanRowCells]
    split
    · exact ih g d
    · dsimp only
      split
      · exact fillCellAndParallel_shape _ _ _
      · exact ih g _

theorem scanRowCells_le {D : Type} (O : Oracle D) (row v : ℤ) :
    ∀ (l : List ℤ) (g : GState) (d : D), FillLe g (scanRowCells O row v g d l).1 := by
  intro l
  induction l with
  | nil => intro g d; exact fillLe_refl _
  | cons c rest ih =>
    intro g d
    rw [scanRowCells]
    split
    · exact ih g d
    · dsimp only
      split
      · exact fillCellAndParallel_le _ _ _
      · exact ih g _

theorem scanColCells_shape {D : Type} (O : Oracle D) (col v : ℤ) :
    ∀ (l : List ℤ) (g : GState) (d : D), ShapeEq g (scanColCells O col v g d l).1 := by
  intro l
  induction l with
  | nil => intro g d; exact shapeEq_refl _
  | cons r rest ih =>
    intro g d
    rw [scanColCells]
    split
    · exact ih g d
    · dsimp only
      split
      · exact fillCellAndParallel_shape _ _ _
      · exact ih g _

theorem scanColCells_le {D : Type} (O : Oracle D) (col v : ℤ) :
    ∀ (l : List ℤ) (g : GState) (d : D), FillLe g (scanColCells O col v g d l).1 := by
  intro l
  induction l with
  | nil => intro g d; exact fillLe_refl _
  | cons r rest ih =>
    intro g d
    rw [scanColCells]
    split
    · exact ih g d
    · dsimp only
      split
      · exact fillCellAndParallel_le _ _ _
      · exact ih g _

theorem ensureRowStep_shape {D : Type} (O : Oracle D) (p : GState × D) (row : ℤ) :
    ShapeEq p.1 (ensureRowStep O p row).1 := by
  unfold ensureRowStep
  exact shapeEq_trans (fillCellAndParallel_shape _ _ _) (scanRowCells_shape O row _ _ _ _)

theorem ensureRowStep_le {D : Type} (O : Oracle D) (p : GState × D) (row : ℤ) :
    FillLe p.1 (ensureRowStep O p row).1 := by
  unfold ensureRowStep
  exact fillLe_trans (fillCellAndParallel_le _ _ _) (scanRowCells_le O row _ _ _ _)

theorem ensureColStep_shape {D : Type} (O : Oracle D) (p : GState × D) (col : ℤ) :
    ShapeEq p.1 (ensureColStep O p col).1 := by
  unfold ensureColStep
  exact shapeEq_trans (fillCellAndParallel_shape _ _ _) (scanColCells_shape O col _ _ _ _)

theorem ensureColStep_le {D : Type} (O : Oracle D) (p : GState × D) (col : ℤ) :
    FillLe p.1 (ensureColStep O p col).1 := by
  unfold ensureColStep
  exact fillLe_trans (fillCellAndParallel_le _ _ _) (scanColCells_le O col _ _ _ _)

theorem ensureTopBottomCells_shape {D : Type} (O : Oracle D) (g : GState) (d : D) :
    ShapeEq g (ensureTopBottomCells O g d).1 := by
  unfold ensureTopBottomCells
  exact foldl_shape _ (ensureRowStep_shape O) _ (g, d)

theorem ensureTopBottomCells_le {D : Type} (O : Oracle D) (g : GState) (d : D) :
    FillLe g (ensureTopBottomCells O g d).1 := by
  unfold ensureTopBottomCells
  exact foldl_le _ (ensureRowStep_le O) _ (g, d)

theorem ensureLeftRightCells_shape {D : Type} (O : Oracle D) (g : GState) (d : D) :
    ShapeEq g (ensureLeftRightCells O g d).1 := by
  unfold ensureLeftRightCells
  exact foldl_shape _ (ensureColStep_shape O) _ (g, d)

theorem ensureLeftRightCells_le {D : Type} (O : Oracle D) (g : GState) (d : D) :
    FillLe g (ensureLeftRightCells O g d).1 := by
  unfold ensureLeftRightCells
  exact foldl_le _ (ensureColStep_le O) _ (g, d)

/-- `gridBuild` unfolded over explicitly named intermediate states. -/
theorem gridBuild_eq_stages {D : Type} (O : Oracle D) (g g1 : GState) (d d1 : D)
    (hgen : generateCells O g d = (g1, d1)) :
    gridBuild O g d =
      (let p2 := if g1.ensureTopBottom = true then ensureTopBottomCells O g1 d1 else (g1, d1)
       if p2.1.ensureLeftRight = true then ensureLeftRightCells O p2.1 p2.2 else p2) := by
  unfold gridBuild
  rw [hgen]

theorem gridBuild_shape {D : Type} (O : Oracle D) (g : GState) (d : D) :
    ShapeEq g (gridBuild O g d).1 := by
  rcases hgen : generateCells O g d with ⟨g1, d1⟩
  have s1 : ShapeEq g g1 := by
    have h := generateCells_shape O g d
    rw [hgen] at h
    exact h
  rw [gridBuild_eq_stages O g g1 d d1 hgen]
  by_cases h1 : g1.ensureTopBottom = true
  · rcases htb : ensureTopBottomCells O g1 d1 with ⟨g2, d2⟩
    have s2 : ShapeEq g1 g2 := by
      have h := ensureTopBottomCells_shape O g1 d1
      rw [htb] at h
      exact h
    simp only [h1, if_true, htb]
    by_cases h2 : g2.ensureLeftRight = true
    · simp only [h2, if_true]
      exact shapeEq_trans s1 (shapeEq_trans s2 (ensureLeftRightCells_shape O g2 d2))
    · simp [h2]
      exact shapeEq_trans s1 s2
  · simp [h1]
    by_cases h2 : g1.ensureLeftRight = true
    · simp only [h2, if_true]
      exact shapeEq_trans s1 (ensureLeftRightCells_shape O g1 d1)
    · simp [h2]
      exact s1

theorem gridBuild_le {D : Type} (O : Oracle D) (g : GState) (d : D) :
    FillLe g (gridBuild O g d).1 := by
  rcases hgen : generateCells O g d with ⟨g1, d1⟩
  have s1 : FillLe g g1 := by
    have h := generateCells_le O g d
    rw [hgen] at h
    exact h
  rw [gridBuild_eq_stages O g g1 d d1 hgen]
  by_cases h1 : g1.ensureTopBottom = true
  · rcases htb : ensureTopBottomCells O g1 d1 with ⟨g2, d2⟩
    have s2 : FillLe g1 g2 := by
      have h := ensureTopBottomCells_le O g1 d1
      rw [htb] at h
      exact h
    simp only [h1, if_true, htb]
    by_cases h2 : g2.ensureLeftRight = true
    · simp only [h2, if_true]
      exact fillLe_trans s1 (fillLe_trans s2 (ensureLeftRightCells_le O g2 d2))
    · simp [h2]
      exact fillLe_trans s1 s2
  · simp [h1]
    by_cases h2 : g1.ensureLeftRight = true
    · simp only [h2, if_true]
      exact fillLe_trans s1 (ensureLeftRightCells_le O g1 d1)
    · simp [h2]
      exact s1

/-- C9: the `Grid` constructor fails (with `InvalidDimensions`, before any
cell allocation) exactly when the resolved row or column count is
non-positive or non-integer; on success the grid's dimensions equal the
configured size, every cell starts empty, and `build()` never changes the
dimensions (for any callbacks). -/
theorem gridCtor_spec (size : GridSizeConfig) (vs tb lr : Bool) :
    ((gridCtor size vs tb lr = Except.error GridErr.invalidDimensions) ↔
      ((resolvedSize size).1 ≤ 0 ∨ (resolvedSize size).2 ≤ 0 ∨
        (resolvedSize size).1.den ≠ 1 ∨ (resolvedSize size).2.den ≠ 1)) ∧
    (∀ g, gridCtor size vs tb lr = Except.ok g →
      ((g.rows : ℚ) = (resolvedSize size).1 ∧ (g.cols : ℚ) = (resolvedSize size).2 ∧
       (∀ r c, g.filled r c = false) ∧
       (∀ (D : Type) (O : Oracle D) (d : D),
         (gridBuild O g d).1.rows = g.rows ∧ (gridBuild O g d).1.cols = g.cols))) := by
  by_cases hbad : (resolvedSize size).1 ≤ 0 ∨ (resolvedSize size).2 ≤ 0 ∨
      (resolvedSize size).1.den ≠ 1 ∨ (resolvedSize size).2.den ≠ 1
  · constructor
    · simp [gridCtor, getNormalizedSize, hbad]
    · intro g hg
      simp [gridCtor, getNormalizedSize, hbad] at hg
  · constructor
    · simp [gridCtor, getNormalizedSize, hbad]
    · intro g hg
      simp only [gridCtor, getNormalizedSize, hbad, if_false] at hg
      push_neg at hbad
      obtain ⟨hpos1, hpos2, hden1, hden2⟩ := hbad
      simp only [Except.ok.injEq] at hg
      have hrows : g.rows = (resolvedSize size).1.num.toNat := by rw [← hg]
      have hcols : g.cols = (resolvedSize size).2.num.toNat := by rw [← hg]
      have hcast : ∀ q : ℚ, 0 < q → q.den = 1 → ((q.num.toNat : ℚ)) = q := by
        intro q hq hqden
        have hnum : 0 < q.num := Rat.num_pos.mpr hq
        have h1 : ((q.num.toNat : ℤ)) = q.num := Int.toNat_of_nonneg (le_of_lt hnum)
        have h2 : ((q.num : ℚ)) = q := by
          conv_rhs => rw [← Rat.num_div_den q]
          rw [hqden]
          simp
        rw [← h2]
        exact_mod_cast congrArg (fun z : ℤ => (z : ℚ)) h1
      refine ⟨?_, ?_, ?_, ?_⟩
      · rw [hrows]
        exact hcast _ hpos1 hden1
      · rw [hcols]
        exact hcast _ hpos2 hden2
      · intro r c
        rw [← hg]
      · intro D O d
        have h := gridBuild_shape O g d
        exact ⟨h.1, h.2.1⟩

/-- Witness for C9 at a fractional size (rejected) — via the `∀ g`
branch instantiated on an accepted 3×4 grid. -/
theorem gridCtor_spec_witness :
    ((gridCtor (GridSizeConfig.rc 3 4) false false false = Except.error GridErr.invalidDimensions) ↔
      ((resolvedSize (GridSizeConfig.rc 3 4)).1 ≤ 0 ∨
        (resolvedSize (GridSizeConfig.rc 3 4)).2 ≤ 0 ∨
        (resolvedSize (GridSizeConfig.rc 3 4)).1.den ≠ 1 ∨
        (resolvedSize (GridSizeConfig.rc 3 4)).2.den ≠ 1)) ∧
    (∀ g, gridCtor (GridSizeConfig.rc 3 4) false false false = Except.ok g →
      ((g.rows : ℚ) = (resolvedSize (GridSizeConfig.rc 3 4)).1 ∧
       (g.cols : ℚ) = (resolvedSize (GridSizeConfig.rc 3 4)).2 ∧
       (∀ r c, g.filled r c = false) ∧
       (∀ (D : Type) (O : Oracle D) (d : D),
         (gridBuild O g d).1.rows = g.rows ∧ (gridBuild O g d).1.cols = g.cols))) :=
  gridCtor_spec (GridSizeConfig.rc 3 4) false false false

/-- C7: in `drawCompletePath`, an empty cell contributes inner-corner
contours exactly when `canDrawInnerCorner` holds — i.e. iff inner rounding
is positive and (flow is enabled, or inner ≥ outer with positive stroke
width, or inner > outer with zero stroke width) — and the emitted path
contains exactly one closed concave-corner contour per pair of adjacent
filled orthogonal neighbors (top+left, top+right, bottom+right,
bottom+left), hence between zero and four contours. -/
theorem innerCorner_spec (s : SVGStyle) (g : GState) (r c : ℤ)
    (hin0 : 0 ≤ s.roundingInner) (hsw0 : 0 ≤ s.strokeWidth)
    (hempty : g.filled r c = false) :
    (drawCellContribution s g r c =
      if canDrawInnerCorner s then drawInnerCornersPath s g r c else []) ∧
    (canDrawInnerCorner s = true ↔
      (0 < s.roundingInner ∧
        (s.flow = true ∨ (0 < s.strokeWidth ∧ s.roundingOuter ≤ s.roundingInner) ∨
         (s.strokeWidth = 0 ∧ s.roundingOuter < s.roundingInner)))) ∧
    (countContours (drawInnerCornersPath s g r c) =
      (if hasFilledNeighborAt g r c (-1) 0 && hasFilledNeighborAt g r c 0 (-1) then 1 else 0) +
      (if hasFilledNeighborAt g r c (-1) 0 && hasFilledNeighborAt g r c 0 1 then 1 else 0) +
      (if hasFilledNeighborAt g r c 1 0 && hasFilledNeighborAt g r c 0 1 then 1 else 0) +
      (if hasFilledNeighborAt g r c 1 0 && hasFilledNeighborAt g r c 0 (-1) then 1 else 0)) ∧
    countContours (drawInnerCornersPath s g r c) ≤ 4 := by
  have hcount : countContours (drawInnerCornersPath s g r c) =
      (if hasFilledNeighborAt g r c (-1) 0 && hasFilledNeighborAt g r c 0 (-1) then 1 else 0) +
      (if hasFilledNeighborAt g r c (-1) 0 && hasFilledNeighborAt g r c 0 1 then 1 else 0) +
      (if hasFilledNeighborAt g r c 1 0 && hasFilledNeighborAt g r c 0 1 then 1 else 0) +
      (if hasFilledNeighborAt g r c 1 0 && hasFilledNeighborAt g r c 0 (-1) then 1 else 0) := by
    unfold drawInnerCornersPath countContours
    dsimp only
    split_ifs <;> simp_all [isClose, List.filter_append]
  refine ⟨?_, ?_, hcount, ?_⟩
  · simp [drawCellContribution, hempty]
  · rw [canDrawInnerCorner, decide_eq_true_eq]
    constructor
    · rintro ⟨hne, h2 | hflow⟩
      · refine ⟨lt_of_le_of_ne hin0 (Ne.symm hne), ?_⟩
        by_cases hsw : s.strokeWidth = 0
        · rw [if_neg (by simp [hsw])] at h2
          exact Or.inr (Or.inr ⟨hsw, h2⟩)
        · rw [if_pos hsw] at h2
          exact Or.inr (Or.inl ⟨lt_of_le_of_ne hsw0 (Ne.symm hsw), h2⟩)
      · exact ⟨lt_of_le_of_ne hin0 (Ne.symm hne), Or.inl hflow⟩
    · rintro ⟨hin, hflow | ⟨hswpos, hle⟩ | ⟨hsweq, hlt⟩⟩
      · exact ⟨ne_of_gt hin, Or.inr hflow⟩
      · refine ⟨ne_of_gt hin, Or.inl ?_⟩
        rw [if_pos (ne_of_gt hswpos)]
        exact hle
      · refine ⟨ne_of_gt hin, Or.inl ?_⟩
        rw [if_neg (by simp [hsweq])]
        exact hlt
  · rw [hcount]
    split_ifs <;> norm_num

/-- Witness for C7: a 2×2 grid with the top-left, top-right and
bottom-left cells filled; the empty bottom-right cell. -/
theorem innerCorner_spec_witness :
    (0 : ℚ) ≤ (1 : ℚ) ∧
    countContours
      (drawInnerCornersPath
        { patternAreaRatio := 1, flow := false, gutter := 0, roundingInner := 1,
          roundingOuter := 0, strokeWidth := 0, cellSize := 10 }
        { rows := 2, cols := 2, verticalSymmetry := false, ensureTopBottom := false,
          ensureLeftRight := false,
          filled := fun r c => decide (¬(r = 1 ∧ c = 1)) } 1 1) ≤ 4 :=
  ⟨by norm_num,
    (innerCorner_spec
      { patternAreaRatio := 1, flow := false, gutter := 0, roundingInner := 1,
        roundingOuter := 0, strokeWidth := 0, cellSize := 10 }
      { rows := 2, cols := 2, verticalSymmetry := false, ensureTopBottom := false,
        ensureLeftRight := false,
        filled := fun r c => decide (¬(r = 1 ∧ c = 1)) } 1 1
      (by norm_num) (by norm_num) (by decide)).2.2.2⟩

/-- Property-path read, for observing nested configuration values. -/
def lookupPath : JVal → List String → Option JVal
  | v, [] => some v
  | JVal.obj fs, k :: rest =>
    (match lookupField fs k with
     | some v => lookupPath v rest
     | none => none)
  | _, _ :: _ => none

/-- The module-level `DEFAULT_AVATAR_GENERATOR_CONFIG` object
(src/unnamed/part_000), transcribed as a `JVal`. -/
def DEFAULT_AVATAR_GENERATOR_CONFIG : JVal :=
  JVal.obj
    [("randomizer", JVal.obj
        [("salt", JVal.num 0),
         ("bias", JVal.obj
            [("cellFillProbability", JVal.num (1 / 2)),
             ("colorWeights", JVal.obj [])])]),
     ("grid", JVal.obj
        [("size", JVal.obj [("rows", JVal.num 5), ("columns", JVal.num 5)]),
         ("ensureFill", JVal.obj
            [("topBottom", JVal.bool false), ("leftRight", JVal.bool false)]),
         ("verticalSymmetry", JVal.bool false)]),
     ("svg", JVal.obj
        [("patternAreaRatio", JVal.num (27 / 40)),
         ("colors", JVal.obj
            [("background", JVal.arr [JVal.str "#ededfe"]),
             ("cellFill", JVal.arr
                [JVal.str "#019244", JVal.str "#11adc8", JVal.str "#2e3192",
                 JVal.str "#3aa17e", JVal.str "#3e72bd", JVal.str "#4f00bc",
                 JVal.str "#662d8c", JVal.str "#8e78ff", JVal.str "#d4145a",
                 JVal.str "#ed1f26", JVal.str "#fbb03b", JVal.str "#fd811d"]),
             ("cellStroke", JVal.arr []),
             ("dropShadow", JVal.arr [])]),
         ("lockColors", JVal.arr []),
         ("cellRounding", JVal.obj [("outer", JVal.num 0), ("inner", JVal.num 0)]),
         ("gutter", JVal.num 0),
         ("flow", JVal.bool true),
         ("strokeWidth", JVal.num 0),
         ("filters", JVal.obj []),
         ("paintOrder", JVal.str "stroke"),
         ("strokeLineJoin", JVal.str "miter")])]

/-- Merging an empty plain object into any value leaves it unchanged. -/
theorem mergeObjectsRecursively_emptyRight (m : JVal) :
    mergeObjectsRecursively m (JVal.obj []) = m := by
  cases m <;> simp [mergeObjectsRecursively, mergeFields]

/-- C10: the constructor's `mergeObjectsRecursively(DEFAULT, config)`
returns the (mutated-in-place) default object itself, so the new instance
config and the module-level default are one value; a later no-config
construction therefore observes the earlier overrides — concretely, after
constructing with `{randomizer: {salt: 7}}`, a no-config construction
reads salt `7` where the original default reads `0`. -/
theorem mergeDefault_mutation :
    (∀ d c : JVal,
      gummyCtorConfig d (some c) =
        (mergeObjectsRecursively d c, mergeObjectsRecursively d c)) ∧
    (∀ d c : JVal,
      (gummyCtorConfig (gummyCtorConfig d (some c)).2 none).1 =
        (gummyCtorConfig d (some c)).1) ∧
    lookupPath
      (gummyCtorConfig
        (gummyCtorConfig DEFAULT_AVATAR_GENERATOR_CONFIG
          (some (JVal.obj [("randomizer", JVal.obj [("salt", JVal.num 7)])]))).2
        none).1
      ["randomizer", "salt"] = some (JVal.num 7) ∧
    lookupPath DEFAULT_AVATAR_GENERATOR_CONFIG ["randomizer", "salt"] =
      some (JVal.num 0) := by
  refine ⟨fun d c => rfl, fun d c => ?_, ?_, ?_⟩
  · simp [gummyCtorConfig, mergeObjectsRecursively_emptyRight]
  · simp [gummyCtorConfig, mergeObjectsRecursively_emptyRight,
      DEFAULT_AVATAR_GENERATOR_CONFIG, mergeObjectsRecursively, mergeFields,
      setKey, lookupField, lookupPath]
  · simp [DEFAULT_AVATAR_GENERATOR_CONFIG, lookupPath, lookupField]

/-- C1: `buildFrom(seed)` on a `GummyGrid` instance produces output that
depends only on the instance's configuration/grid and the seed, not on the
randomizer's pre-call hash or stored seed: `setSeed` rebuilds the hash
from `(salt, seed)` alone.  Two freshly constructed generators with the
same configuration are literally the same `GenState` value (construction
is a pure function of the configuration) and draws on other instances
touch only those instances' own randomizer states, which enter this run
nowhere; since the abstract document value determines the emitted SVG
string by fixed formatting, equal values mean byte-identical output. -/
theorem buildFrom_deterministic (gs : GenState) (seed : String) (ra rb : RState)
    (ha : ra.salt = gs.rand.salt) (hb : rb.salt = gs.rand.salt) :
    genBuildFrom { gs with rand := ra } seed = genBuildFrom { gs with rand := rb } seed := by
  have hseed : setSeed ra seed = setSeed rb seed := by
    simp only [setSeed]
    rw [ha, hb]
  simp only [genBuildFrom]
  rw [hseed]

/-- A small concrete generator configuration for witnessing C1. -/
def sampleGenConfig : GenConfig :=
  { salt := 0, cellFillProbability := 1 / 2, colorWeights := fun _ => none,
    gridSize := GridSizeConfig.num 2, verticalSymmetry := false,
    ensureTopBottom := false, ensureLeftRight := false,
    svg :=
      { style :=
          { patternAreaRatio := 27 / 40, flow := true, gutter := 0,
            roundingInner := 0, roundingOuter := 0, strokeWidth := 0, cellSize := 10 },
        colors := fun _ => [SVGColor.flat "#ededfe"],
        lockColors := some [] } }

/-- A concrete constructed generator instance for witnessing C1. -/
def sampleGen : GenState :=
  { cfg := sampleGenConfig, rand := mkRandomizer 0,
    grid :=
      { rows := 2, cols := 2, verticalSymmetry := false, ensureTopBottom := false,
        ensureLeftRight := false, filled := fun _ _ => false },
    cw := fun _ => none }

/-- Witness for C1: a randomizer that already performed a draw and a
fresh one produce the same `buildFrom` output on the same instance. -/
theorem buildFrom_deterministic_witness :
    ((number (mkRandomizer 0) 3 7).2.salt = sampleGen.rand.salt) ∧
    genBuildFrom { sampleGen with rand := (number (mkRandomizer 0) 3 7).2 } "jarvis" =
      genBuildFrom { sampleGen with rand := mkRandomizer 0 } "jarvis" :=
  ⟨rfl, buildFrom_deterministic sampleGen "jarvis" _ _ rfl rfl⟩

/-! ### The symmetry invariant (C3) -/

/-- Every filled cell is in bounds, its horizontal parallel (when it has
one) is filled, and — under vertical symmetry — its vertical mirror is
filled. -/
def SymOk (g : GState) : Prop :=
  ∀ r c, g.filled r c = true →
    (0 ≤ r ∧ r < (g.rows : ℤ) ∧ 0 ≤ c ∧ c < (g.cols : ℤ)) ∧
    (hasHorizontalParallel g c = true → g.filled r ((g.cols : ℤ) - 1 - c) = true) ∧
    (g.verticalSymmetry = true → g.filled ((g.rows : ℤ) - 1 - r) c = true)

/-- `hasHorizontalParallel` reads only the column count. -/
theorem hasHorizontalParallel_congr {g h : GState} (hcols : h.cols = g.cols) (x : ℤ) :
    hasHorizontalParallel h x = hasHorizontalParallel g x := by
  simp [hasHorizontalParallel, hcols]

/-- `hasVerticalParallel` reads only the row count. -/
theorem hasVerticalParallel_congr {g h : GState} (hrows : h.rows = g.rows) (x : ℤ) :
    hasVerticalParallel h x = hasVerticalParallel g x := by
  simp [hasVerticalParallel, hrows]

/-- A cell without a vertical parallel is its own vertical mirror. -/
theorem noVerticalParallel_self (g : GState) (r : ℤ)
    (h : ¬hasVerticalParallel g r = true) : (g.rows : ℤ) - 1 - r = r := by
  simp only [hasVerticalParallel, decide_eq_true_eq, not_not] at h
  obtain ⟨hodd, hmid⟩ := h
  omega

/-- A cell without a horizontal parallel is its own horizontal mirror. -/
theorem noHorizontalParallel_self (g : GState) (c : ℤ)
    (h : ¬hasHorizontalParallel g c = true) : (g.cols : ℤ) - 1 - c = c := by
  simp only [hasHorizontalParallel, decide_eq_true_eq, not_not] at h
  obtain ⟨hodd, hmid⟩ := h
  omega

/-- `fillCellAndParallel` at an in-bounds cell preserves the symmetry
invariant: the set of cells it adds is itself closed under the two
mirrorings. -/
theorem symOk_fillCellAndParallel (g : GState) (r c : ℤ) (hg : SymOk g)
    (hr0 : 0 ≤ r) (hr : r < (g.rows : ℤ)) (hc0 : 0 ≤ c) (hc : c < (g.cols : ℤ)) :
    SymOk (fillCellAndParallel g r c) := by
  intro a b hab
  have hsh := fillCellAndParallel_shape g r c
  have hrows : (fillCellAndParallel g r c).rows = g.rows := hsh.1
  have hcols : (fillCellAndParallel g r c).cols = g.cols := hsh.2.1
  have hvs : (fillCellAndParallel g r c).verticalSymmetry = g.verticalSymmetry := hsh.2.2.1
  have hle := fillCellAndParallel_le g r c
  rw [hrows, hcols, hvs, hasHorizontalParallel_congr hcols]
  rcases fillCellAndParallel_filled_mp g r c a b hab with
    hold | ⟨ha2, hb2⟩ | ⟨hhp, ha2, hb2⟩ | ⟨hvsy, hvp, ha2, hb2⟩ | ⟨hvsy, hvp, hhp, ha2, hb2⟩
  · obtain ⟨hb, hmirr, hvert⟩ := hg a b hold
    exact ⟨hb, fun hh => hle _ _ (hmirr hh), fun hv => hle _ _ (hvert hv)⟩
  · rw [ha2, hb2]
    refine ⟨⟨hr0, hr, hc0, hc⟩, ?_, ?_⟩
    · intro hh
      exact fillCellAndParallel_hp g r c hh
    · intro hv
      by_cases hvp : hasVerticalParallel g r = true
      · exact fillCellAndParallel_vp g r c hv hvp
      · rw [noVerticalParallel_self g r hvp]
        exact fillCellAndParallel_self g r c
  · rw [ha2, hb2]
    refine ⟨⟨hr0, hr, by omega, by omega⟩, ?_, ?_⟩
    · intro _
      have hb : (g.cols : ℤ) - 1 - ((g.cols : ℤ) - 1 - c) = c := by omega
      rw [hb]
      exact fillCellAndParallel_self g r c
    · intro hv
      by_cases hvp : hasVerticalParallel g r = true
      · exact fillCellAndParallel_vphp g r c hv hvp hhp
      · rw [noVerticalParallel_self g r hvp]
        exact fillCellAndParallel_hp g r c hhp
  · rw [ha2, hb2]
    refine ⟨⟨by omega, by omega, hc0, hc⟩, ?_, ?_⟩
    · intro hh
      exact fillCellAndParallel_vphp g r c hvsy hvp hh
    · intro _
      have ha : (g.rows : ℤ) - 1 - ((g.rows : ℤ) - 1 - r) = r := by omega
      rw [ha]
      exact fillCellAndParallel_self g r c
  · rw [ha2, hb2]
    refine ⟨⟨by omega, by omega, by omega, by omega⟩, ?_, ?_⟩
    · intro _
      have hb : (g.cols : ℤ) - 1 - ((g.cols : ℤ) - 1 - c) = c := by omega
      rw [hb]
      exact fillCellAndParallel_vp g r c hvsy hvp
    · intro _
      have ha : (g.rows : ℤ) - 1 - ((g.rows : ℤ) - 1 - r) = r := by omega
      rw [ha]
      exact fillCellAndParallel_hp g r c hhp

/-! ### The top/bottom edge guarantee (C2) -/

/-- `rowAny` is monotone under fill extension (with equal column count). -/
theorem rowAny_mono {g h : GState} (hle : FillLe g h) (hcols : h.cols = g.cols) (r : ℤ)
    (hr : rowAny g r = true) : rowAny h r = true := by
  rw [rowAny, List.any_eq_true] at hr ⊢
  obtain ⟨c, hcmem, hf⟩ := hr
  exact ⟨c, by rw [hcols]; exact hcmem, hle _ _ hf⟩

/-- A forced fill at an in-range column makes its row non-empty. -/
theorem rowAny_fillCellAndParallel (g : GState) (row v : ℤ)
    (h0 : 0 ≤ v) (hv : v < (g.cols : ℤ)) :
    rowAny (fillCellAndParallel g row v) row = true := by
  rw [rowAny, List.any_eq_true]
  refine ⟨v, ?_, fillCellAndParallel_self g row v⟩
  rw [(fillCellAndParallel_shape g row v).2.1]
  exact mem_intRange.mpr ⟨h0, hv⟩

/-- After `ensureRowStep` the processed row holds a filled cell: the
picked column lies in `[0, ⌊cols/2⌋] ⊆ [0, cols)` and the subsequent scan
only adds fills. -/
theorem ensureRowStep_rowAny {D : Type} (O : Oracle D) (p : GState × D) (row : ℤ)
    (hc : 0 < p.1.cols)
    (hpick : ∀ (dd : D) (mn mx : ℤ), mn ≤ mx →
      mn ≤ (O.numberPicker dd mn mx).1 ∧ (O.numberPicker dd mn mx).1 ≤ mx) :
    rowAny (ensureRowStep O p row).1 row = true := by
  unfold ensureRowStep
  have h0le : (0 : ℤ) ≤ (p.1.cols : ℤ) / 2 :=
    Int.ediv_nonneg (by positivity) (by norm_num)
  obtain ⟨hv0, hv1⟩ := hpick p.2 0 ((p.1.cols : ℤ) / 2) h0le
  refine rowAny_mono (scanRowCells_le O row _ _ _ _)
    ((scanRowCells_shape O row _ _ _ _).2.1) row ?_
  exact rowAny_fillCellAndParallel p.1 row _ hv0 (by omega)

/-- After `ensureTopBottomCells`, the top and bottom rows each hold a
filled cell. -/
theorem ensureTopBottomCells_rows {D : Type} (O : Oracle D) (g : GState) (d : D)
    (hc : 0 < g.cols)
    (hpick : ∀ (dd : D) (mn mx : ℤ), mn ≤ mx →
      mn ≤ (O.numberPicker dd mn mx).1 ∧ (O.numberPicker dd mn mx).1 ≤ mx) :
    rowAny (ensureTopBottomCells O g d).1 0 = true ∧
    rowAny (ensureTopBottomCells O g d).1 ((g.rows : ℤ) - 1) = true := by
  unfold ensureTopBottomCells
  by_cases h0 : rowAny g 0 = true <;> by_cases h1 : rowAny g ((g.rows : ℤ) - 1) = true <;>
    simp only [h0, h1, if_true, if_false, ite_true, ite_false, List.nil_append,
      List.append_nil, List.foldl_cons, List.foldl_nil]
  · exact ⟨trivial, trivial⟩
  · constructor
    · exact rowAny_mono (ensureRowStep_le O (g, d) _) ((ensureRowStep_shape O (g, d) _).2.1) 0 h0
    · exact ensureRowStep_rowAny O (g, d) _ hc hpick
  · constructor
    · exact ensureRowStep_rowAny O (g, d) _ hc hpick
    · exact rowAny_mono (ensureRowStep_le O (g, d) _) ((ensureRowStep_shape O (g, d) _).2.1) _ h1
  · have hstep1 : rowAny (ensureRowStep O (g, d) 0).1 0 = true :=
      ensureRowStep_rowAny O (g, d) 0 hc hpick
    constructor
    · exact rowAny_mono (ensureRowStep_le O _ _) ((ensureRowStep_shape O _ _).2.1) 0 hstep1
    · refine ensureRowStep_rowAny O (ensureRowStep O (g, d) 0) _ ?_ hpick
      rw [(ensureRowStep_shape O (g, d) 0).2.1]
      exact hc

/-- C2: with `ensureFill.topBottom` enabled, after `Grid.build()` the top
row and the bottom row each contain at least one filled cell — for every
`fillDecider` callback (including one constantly returning `false`),
provided the `numberPicker` callback answers within the requested range
(as `Randomizer.number` does). -/
theorem build_ensureTopBottom {D : Type} (O : Oracle D) (g : GState) (d : D)
    (_hr : 0 < g.rows) (hc : 0 < g.cols) (htb : g.ensureTopBottom = true)
    (hpick : ∀ (dd : D) (mn mx : ℤ), mn ≤ mx →
      mn ≤ (O.numberPicker dd mn mx).1 ∧ (O.numberPicker dd mn mx).1 ≤ mx) :
    rowAny (gridBuild O g d).1 0 = true ∧
    rowAny (gridBuild O g d).1 ((g.rows : ℤ) - 1) = true := by
  rcases hgen : generateCells O g d with ⟨g1, d1⟩
  have s1 : ShapeEq g g1 := by
    have h := generateCells_shape O g d
    rw [hgen] at h
    exact h
  rw [gridBuild_eq_stages O g g1 d d1 hgen]
  have htb1 : g1.ensureTopBottom = true := s1.2.2.2.1.trans htb
  simp only [htb1, if_true]
  rcases htbc : ensureTopBottomCells O g1 d1 with ⟨g2, d2⟩
  have hres := ensureTopBottomCells_rows O g1 d1 (by rw [s1.2.1]; exact hc) hpick
  rw [htbc] at hres
  rw [show g1.rows = g.rows from s1.1] at hres
  simp only [htbc]
  by_cases hlr : g2.ensureLeftRight = true
  · simp only [hlr, if_true]
    have hle3 := ensureLeftRightCells_le O g2 d2
    have hc3 := (ensureLeftRightCells_shape O g2 d2).2.1
    exact ⟨rowAny_mono hle3 hc3 0 hres.1, rowAny_mono hle3 hc3 _ hres.2⟩
  · simp [hlr]
    exact hres

/-- The all-false decider / lowest-value picker oracle, for witnessing
the edge guarantee at fill probability 0. -/
def constFalseOracle : Oracle Unit :=
  { fillDecider := fun _ => (false, ()),
    numberPicker := fun _ mn _ => (mn, ()) }

/-- A 2×2 grid with `ensureFill.topBottom` enabled. -/
def gTB : GState :=
  { rows := 2, cols := 2, verticalSymmetry := false, ensureTopBottom := true,
    ensureLeftRight := false, filled := fun _ _ => false }

/-- Witness for C2: the constantly-false decider still leaves both extreme
rows non-empty. -/
theorem build_ensureTopBottom_witness :
    rowAny (gridBuild constFalseOracle gTB ()).1 0 = true ∧
    rowAny (gridBuild constFalseOracle gTB ()).1 ((gTB.rows : ℤ) - 1) = true :=
  build_ensureTopBottom constFalseOracle gTB () (by decide) (by decide) (by decide)
    (fun _ mn _ h => ⟨le_refl mn, h⟩)

/-- Every cell of the fillable iteration is in bounds. -/
theorem fillableCells_bounds (g : GState) :
    ∀ p ∈ fillableCells g,
      0 ≤ p.1 ∧ p.1 < (g.rows : ℤ) ∧ 0 ≤ p.2 ∧ p.2 < (g.cols : ℤ) := by
  intro p hp
  unfold fillableCells at hp
  obtain ⟨r, hr1, hp2⟩ := List.mem_flatMap.mp hp
  obtain ⟨c, hc1, heq⟩ := List.mem_map.mp hp2
  obtain ⟨hr0, hrlt⟩ := mem_intRange.mp hr1
  obtain ⟨hc0, hclt⟩ := mem_intRange.mp hc1
  subst heq
  have hrow : r < (g.rows : ℤ) := by
    rcases hvs : g.verticalSymmetry <;> rw [hvs] at hrlt <;> push_cast at hrlt ⊢ <;> omega
  have hcol : c < (g.cols : ℤ) := by push_cast at hclt ⊢; omega
  exact ⟨hr0, hrow, hc0, hcol⟩

/-- The base-generation fold preserves the symmetry invariant along a
list of in-bounds cells. -/
theorem symOk_genFold {D : Type} (O : Oracle D) :
    ∀ (l : List (ℤ × ℤ)) (g : GState) (d : D), SymOk g →
      (∀ p ∈ l, 0 ≤ p.1 ∧ p.1 < (g.rows : ℤ) ∧ 0 ≤ p.2 ∧ p.2 < (g.cols : ℤ)) →
      SymOk (l.foldl
        (fun p cell =>
          let draw := O.fillDecider p.2
          (if draw.1 then fillCellAndParallel p.1 cell.1 cell.2 else p.1, draw.2))
        (g, d)).1 := by
  intro l
  induction l with
  | nil => intro g d hg _; exact hg
  | cons hd tl ih =>
    intro g d hg hb
    obtain ⟨h1, h2, h3, h4⟩ := hb hd (List.mem_cons_self _ _)
    simp only [List.foldl_cons]
    by_cases hdraw : (O.fillDecider d).1 = true
    · simp only [hdraw, if_true]
      have hsh := fillCellAndParallel_shape g hd.1 hd.2
      refine ih _ _ (symOk_fillCellAndParallel g hd.1 hd.2 hg h1 h2 h3 h4) ?_
      intro q hq
      rw [hsh.1, hsh.2.1]
      exact hb q (List.mem_cons_of_mem _ hq)
    · simp only [Bool.not_eq_true] at hdraw
      simp only [hdraw, Bool.false_eq_true, if_false]
      exact ih _ _ hg fun q hq => hb q (List.mem_cons_of_mem _ hq)

theorem symOk_generateCells {D : Type} (O : Oracle D) (g : GState) (d : D)
    (hg : SymOk g) : SymOk (generateCells O g d).1 := by
  unfold generateCells
  exact symOk_genFold O (fillableCells g) g d hg (fillableCells_bounds g)

/-- The scan phase preserves the symmetry invariant when the row and the
candidate columns are in bounds. -/
theorem symOk_scanRowCells {D : Type} (O : Oracle D) (row v : ℤ) :
    ∀ (l : List ℤ) (g : GState) (d : D), SymOk g →
      0 ≤ row → row < (g.rows : ℤ) → (∀ x ∈ l, 0 ≤ x ∧ x < (g.cols : ℤ)) →
      SymOk (scanRowCells O row v g d l).1 := by
  intro l
  induction l with
  | nil => intro g d hg _ _ _; exact hg
  | cons c rest ih =>
    intro g d hg hrow0 hrow hb
    obtain ⟨hc0, hclt⟩ := hb c (List.mem_cons_self _ _)
    rw [scanRowCells]
    split
    · exact ih g d hg hrow0 hrow fun x hx => hb x (List.mem_cons_of_mem _ hx)
    · dsimp only
      split
      · exact symOk_fillCellAndParallel g row c hg hrow0 hrow hc0 hclt
      · exact ih g _ hg hrow0 hrow fun x hx => hb x (List.mem_cons_of_mem _ hx)

theorem symOk_scanColCells {D : Type} (O : Oracle D) (col v : ℤ) :
    ∀ (l : List ℤ) (g : GState) (d : D), SymOk g →
      0 ≤ col → col < (g.cols : ℤ) → (∀ x ∈ l, 0 ≤ x ∧ x < (g.rows : ℤ)) →
      SymOk (scanColCells O col v g d l).1 := by
  intro l
  induction l with
  | nil => intro g d hg _ _ _; exact hg
  | cons r rest ih =>
    intro g d hg hcol0 hcol hb
    obtain ⟨hr0, hrlt⟩ := hb r (List.mem_cons_self _ _)
    rw [scanColCells]
    split
    · exact ih g d hg hcol0 hcol fun x hx => hb x (List.mem_cons_of_mem _ hx)
    · dsimp only
      split
      · exact symOk_fillCellAndParallel g r col hg hr0 hrlt hcol0 hcol
      · exact ih g _ hg hcol0 hcol fun x hx => hb x (List.mem_cons_of_mem _ hx)

theorem symOk_ensureRowStep {D : Type} (O : Oracle D) (p : GState × D) (row : ℤ)
    (hg : SymOk p.1) (hrow0 : 0 ≤ row) (hrow : row < (p.1.rows : ℤ)) (hc : 0 < p.1.cols)
    (hpick : ∀ (dd : D) (mn mx : ℤ), mn ≤ mx →
      mn ≤ (O.numberPicker dd mn mx).1 ∧ (O.numberPicker dd mn mx).1 ≤ mx) :
    SymOk (ensureRowStep O p row).1 := by
  unfold ensureRowStep
  have h0le : (0 : ℤ) ≤ (p.1.cols : ℤ) / 2 :=
    Int.ediv_nonneg (by positivity) (by norm_num)
  obtain ⟨hv0, hv1⟩ := hpick p.2 0 ((p.1.cols : ℤ) / 2) h0le
  have hvlt : (O.numberPicker p.2 0 ((p.1.cols : ℤ) / 2)).1 < (p.1.cols : ℤ) := by omega
  have hsh := fillCellAndParallel_shape p.1 row (O.numberPicker p.2 0 ((p.1.cols : ℤ) / 2)).1
  refine symOk_scanRowCells O row _ _ _ _
    (symOk_fillCellAndParallel p.1 row _ hg hrow0 hrow hv0 hvlt)
    hrow0 (by rw [hsh.1]; exact hrow) ?_
  intro x hx
  obtain ⟨h0, hlt⟩ := mem_intRange.mp hx
  rw [hsh.2.1]
  exact ⟨h0, hlt⟩

theorem symOk_ensureColStep {D : Type} (O : Oracle D) (p : GState × D) (col : ℤ)
    (hg : SymOk p.1) (hcol0 : 0 ≤ col) (hcol : col < (p.1.cols : ℤ)) (hr : 0 < p.1.rows)
    (hpick : ∀ (dd : D) (mn mx : ℤ), mn ≤ mx →
      mn ≤ (O.numberPicker dd mn mx).1 ∧ (O.numberPicker dd mn mx).1 ≤ mx) :
    SymOk (ensureColStep O p col).1 := by
  unfold ensureColStep
  have h0le : (0 : ℤ) ≤ (p.1.rows : ℤ) / 2 :=
    Int.ediv_nonneg (by positivity) (by norm_num)
  obtain ⟨hv0, hv1⟩ := hpick p.2 0 ((p.1.rows : ℤ) / 2) h0le
  have hvlt : (O.numberPicker p.2 0 ((p.1.rows : ℤ) / 2)).1 < (p.1.rows : ℤ) := by omega
  have hsh := fillCellAndParallel_shape p.1 (O.numberPicker p.2 0 ((p.1.rows : ℤ) / 2)).1 col
  refine symOk_scanColCells O col _ _ _ _
    (symOk_fillCellAndParallel p.1 _ col hg hv0 hvlt hcol0 hcol)
    hcol0 (by rw [hsh.2.1]; exact hcol) ?_
  intro x hx
  obtain ⟨h0, hlt⟩ := mem_intRange.mp hx
  rw [hsh.1]
  exact ⟨h0, hlt⟩

/-- The row-list fold of `ensureTopBottomCells` preserves the invariant
along in-bounds rows. -/
theorem symOk_rowsFold {D : Type} (O : Oracle D)
    (hpick : ∀ (dd : D) (mn mx : ℤ), mn ≤ mx →
      mn ≤ (O.numberPicker dd mn mx).1 ∧ (O.numberPicker dd mn mx).1 ≤ mx) :
    ∀ (l : List ℤ) (p : GState × D), SymOk p.1 → 0 < p.1.cols →
      (∀ x ∈ l, 0 ≤ x ∧ x < (p.1.rows : ℤ)) →
      SymOk (l.foldl (ensureRowStep O) p).1 := by
  intro l
  induction l with
  | nil => intro p hg _ _; exact hg
  | cons hd tl ih =>
    intro p hg hc hb
    obtain ⟨h1, h2⟩ := hb hd (List.mem_cons_self _ _)
    simp only [List.foldl_cons]
    have hsh := ensureRowStep_shape O p hd
    refine ih _ (symOk_ensureRowStep O p hd hg h1 h2 hc hpick) ?_ ?_
    · rw [hsh.2.1]
      exact hc
    · intro x hx
      rw [hsh.1]
      exact hb x (List.mem_cons_of_mem _ hx)

theorem symOk_colsFold {D : Type} (O : Oracle D)
    (hpick : ∀ (dd : D) (mn mx : ℤ), mn ≤ mx →
      mn ≤ (O.numberPicker dd mn mx).1 ∧ (O.numberPicker dd mn mx).1 ≤ mx) :
    ∀ (l : List ℤ) (p : GState × D), SymOk p.1 → 0 < p.1.rows →
      (∀ x ∈ l, 0 ≤ x ∧ x < (p.1.cols : ℤ)) →
      SymOk (l.foldl (ensureColStep O) p).1 := by
  intro l
  induction l with
  | nil => intro p hg _ _; exact hg
  | cons hd tl ih =>
    intro p hg hr hb
    obtain ⟨h1, h2⟩ := hb hd (List.mem_cons_self _ _)
    simp only [List.foldl_cons]
    have hsh := ensureColStep_shape O p hd
    refine ih _ (symOk_ensureColStep O p hd hg h1 h2 hr hpick) ?_ ?_
    · rw [hsh.1]
      exact hr
    · intro x hx
      rw [hsh.2.1]
      exact hb x (List.mem_cons_of_mem _ hx)

theorem symOk_ensureTopBottomCells {D : Type} (O : Oracle D) (g : GState) (d : D)
    (hg : SymOk g) (hr : 0 < g.rows) (hc : 0 < g.cols)
    (hpick : ∀ (dd : D) (mn mx : ℤ), mn ≤ mx →
      mn ≤ (O.numberPicker dd mn mx).1 ∧ (O.numberPicker dd mn mx).1 ≤ mx) :
    SymOk (ensureTopBottomCells O g d).1 := by
  unfold ensureTopBottomCells
  refine symOk_rowsFold O hpick _ (g, d) hg hc ?_
  intro x hx
  show (0 : ℤ) ≤ x ∧ x < (g.rows : ℤ)
  rcases List.mem_append.mp hx with hx | hx <;> split_ifs at hx <;>
    simp only [List.mem_singleton, List.not_mem_nil] at hx <;> subst hx <;>
      exact ⟨by omega, by omega⟩

theorem symOk_ensureLeftRightCells {D : Type} (O : Oracle D) (g : GState) (d : D)
    (hg : SymOk g) (hr : 0 < g.rows) (hc : 0 < g.cols)
    (hpick : ∀ (dd : D) (mn mx : ℤ), mn ≤ mx →
      mn ≤ (O.numberPicker dd mn mx).1 ∧ (O.numberPicker dd mn mx).1 ≤ mx) :
    SymOk (ensureLeftRightCells O g d).1 := by
  unfold ensureLeftRightCells
  refine symOk_colsFold O hpick _ (g, d) hg hr ?_
  intro x hx
  show (0 : ℤ) ≤ x ∧ x < (g.cols : ℤ)
  rcases List.mem_append.mp hx with hx | hx <;> split_ifs at hx <;>
    simp only [List.mem_singleton, List.not_mem_nil] at hx <;> subst hx <;>
      exact ⟨by omega, by omega⟩

theorem symOk_gridBuild {D : Type} (O : Oracle D) (g : GState) (d : D)
    (hg : SymOk g) (hr : 0 < g.rows) (hc : 0 < g.cols)
    (hpick : ∀ (dd : D) (mn mx : ℤ), mn ≤ mx →
      mn ≤ (O.numberPicker dd mn mx).1 ∧ (O.numberPicker dd mn mx).1 ≤ mx) :
    SymOk (gridBuild O g d).1 := by
  rcases hgen : generateCells O g d with ⟨g1, d1⟩
  have s1 : ShapeEq g g1 := by
    have h := generateCells_shape O g d
    rw [hgen] at h
    exact h
  have hg1 : SymOk g1 := by
    have h := symOk_generateCells O g d hg
    rw [hgen] at h
    exact h
  have hr1 : 0 < g1.rows := by rw [s1.1]; exact hr
  have hc1 : 0 < g1.cols := by rw [s1.2.1]; exact hc
  rw [gridBuild_eq_stages O g g1 d d1 hgen]
  by_cases h1 : g1.ensureTopBottom = true
  · rcases htb : ensureTopBottomCells O g1 d1 with ⟨g2, d2⟩
    have s2 : ShapeEq g1 g2 := by
      have h := ensureTopBottomCells_shape O g1 d1
      rw [htb] at h
      exact h
    have hg2 : SymOk g2 := by
      have h := symOk_ensureTopBottomCells O g1 d1 hg1 hr1 hc1 hpick
      rw [htb] at h
      exact h
    simp only [h1, if_true, htb]
    by_cases h2 : g2.ensureLeftRight = true
    · simp only [h2, if_true]
      exact symOk_ensureLeftRightCells O g2 d2 hg2 (by rw [s2.1]; exact hr1)
        (by rw [s2.2.1]; exact hc1) hpick
    · simp [h2]
      exact hg2
  · simp [h1]
    by_cases h2 : g1.ensureLeftRight = true
    · simp only [h2, if_true]
      exact symOk_ensureLeftRightCells O g1 d1 hg1 hr1 hc1 hpick
    · simp [h2]
      exact hg1

/-- C3: after `Grid.build()` on a fresh grid — for any `fillDecider`
callback and any in-range `numberPicker` callback — every filled cell's
horizontal parallel (when it has one) is filled, and under
`verticalSymmetry` every filled cell's vertical mirror is filled. -/
theorem build_symmetry {D : Type} (O : Oracle D) (g : GState) (d : D)
    (hr : 0 < g.rows) (hc : 0 < g.cols)
    (hempty : ∀ r c, g.filled r c = false)
    (hpick : ∀ (dd : D) (mn mx : ℤ), mn ≤ mx →
      mn ≤ (O.numberPicker dd mn mx).1 ∧ (O.numberPicker dd mn mx).1 ≤ mx) :
    ∀ r c, (gridBuild O g d).1.filled r c = true →
      (hasHorizontalParallel (gridBuild O g d).1 c = true →
        (gridBuild O g d).1.filled r (((gridBuild O g d).1.cols : ℤ) - 1 - c) = true) ∧
      ((gridBuild O g d).1.verticalSymmetry = true →
        (gridBuild O g d).1.filled (((gridBuild O g d).1.rows : ℤ) - 1 - r) c = true) := by
  have hg0 : SymOk g := by
    intro r c hrc
    rw [hempty r c] at hrc
    cases hrc
  have hfin := symOk_gridBuild O g d hg0 hr hc hpick
  intro r c hrc
  obtain ⟨_, hmirr, hvert⟩ := hfin r c hrc
  exact ⟨hmirr, hvert⟩

/-- A 3×3 grid with vertical symmetry, all cells initially empty. -/
def gSym : GState :=
  { rows := 3, cols := 3, verticalSymmetry := true, ensureTopBottom := true,
    ensureLeftRight := false, filled := fun _ _ => false }

/-- Witness for C3 on a concrete symmetric build: the forced cell (0,0)
is filled, and so are its horizontal and vertical mirrors. -/
theorem build_symmetry_witness :
    (gridBuild constFalseOracle gSym ()).1.filled 0
      (((gridBuild constFalseOracle gSym ()).1.cols : ℤ) - 1 - 0) = true ∧
    (gridBuild constFalseOracle gSym ()).1.filled
      (((gridBuild constFalseOracle gSym ()).1.rows : ℤ) - 1 - 0) 0 = true :=
  ⟨(build_symmetry constFalseOracle gSym () (by decide) (by decide) (fun _ _ => rfl)
      (fun _ mn _ h => ⟨le_refl mn, h⟩) 0 0 (by decide)).1 (by decide),
   (build_symmetry constFalseOracle gSym () (by decide) (by decide) (fun _ _ => rfl)
      (fun _ mn _ h => ⟨le_refl mn, h⟩) 0 0 (by decide)).2 (by decide)⟩

end GummyGrid
